import Mathlib

/-!
Verification development for the Speechranks matchup-model pipeline.

Shallow embedding of:
  * `to_upload/matchup_model/extract_rounds_from_cumulatives.py`
    (segmenter `split_by_team_experiences`, round parser
    `split_team_into_round_experiences` / `parse_round_experience` /
    `parse_team_experience`, year/tournament inference, and the
    reconciliation engine `merge_duplicate_rounds`), and
  * `to_upload/matchup_model/join_rounds_with_teams.py`
    (`NameNormalizer.normalize` under the built-in default configuration).

Modelling conventions:
  * a document is a list of text lines (`List String`); character-level
    operations work on `String.data`;
  * Python exceptions (`UnboundLocalError` from the unassigned loop index,
    `IndexError` from list indexing, `ValueError` from `float()` / `int()`)
    are modelled with `Except PyErr`;
  * Python `float` speaker points are modelled as exact rationals `ℚ`
    (the pipeline only parses plain decimal literals and compares against 0,
    where binary rounding is irrelevant);
  * `print`-based warnings are modelled as counters/lists in the state.
-/

namespace Speechranks

/-- Model of the regex character class `\d` restricted to ASCII digits. -/
def isDigitChar (c : Char) : Bool := c.isDigit

/-- Model of the regex character class `\s` (whitespace). -/
def isSpaceChar (c : Char) : Bool := c.isWhitespace

/-- Model of the regex character class `\w` (word characters). -/
def isWordChar (c : Char) : Bool := c.isAlphanum || c == '_'

/-- Boolean test that `pat` is a leading segment of `s` (used to model
substring search the way CPython scans a string left to right). -/
def leadsWith : List Char → List Char → Bool
  | [], _ => true
  | _ :: _, [] => false
  | a :: as, b :: bs => a == b && leadsWith as bs

/-- Model of the Python substring test `needle in hay`. -/
def containsSub (hay needle : List Char) : Bool :=
  match hay with
  | [] => needle.isEmpty
  | _ :: t => leadsWith needle hay || containsSub t needle

/-- String-level wrapper for the Python substring test `needle in hay`. -/
def strContains (hay needle : String) : Bool := containsSub hay.data needle.data

/-- Fuel-indexed helper for `str.replace`: the fuel dominates the length of
the list being scanned, so the zero-fuel branch is unreachable from
`pyReplaceChars`. -/
def pyReplaceAux (pat repl : List Char) : Nat → List Char → List Char
  | _, [] => []
  | 0, c :: rest => c :: rest
  | fuel + 1, c :: rest =>
    if leadsWith pat (c :: rest) && !pat.isEmpty then
      repl ++ pyReplaceAux pat repl fuel ((c :: rest).drop pat.length)
    else
      c :: pyReplaceAux pat repl fuel rest

/-- Model of Python `str.replace(pat, repl)`: replace every non-overlapping
occurrence of `pat`, scanning left to right.  (All patterns used by the
source are nonempty, so the `!pat.isEmpty` guard is never the deciding
condition.) -/
def pyReplaceChars (s pat repl : List Char) : List Char :=
  pyReplaceAux pat repl s.length s

/-- Model of Python `str.strip()` on a character list. -/
def pyStripChars (l : List Char) : List Char :=
  ((l.dropWhile isSpaceChar).reverse.dropWhile isSpaceChar).reverse

/-- String-level model of Python `str.strip()`. -/
def strStrip (s : String) : String := ⟨pyStripChars s.data⟩

/-- Splitting on whitespace runs, accumulator form (models `str.split()`). -/
def pyWordsAux : List Char → List Char → List (List Char)
  | [], acc => if acc.isEmpty then [] else [acc.reverse]
  | c :: cs, acc =>
    if isSpaceChar c then
      if acc.isEmpty then pyWordsAux cs [] else acc.reverse :: pyWordsAux cs []
    else pyWordsAux cs (c :: acc)

/-- Model of Python `str.split()` (split on whitespace, no empty fields). -/
def pyWords (s : String) : List String := (pyWordsAux s.data []).map fun l => ⟨l⟩

/-- Model of Python `str.rstrip('*')` (drop every trailing `*`). -/
def rstripStar (s : String) : String :=
  ⟨(s.data.reverse.dropWhile (fun c => c == '*')).reverse⟩

/-- Digit-list to number accumulator. -/
def digitsToNat (l : List Char) : Nat := l.foldl (fun n c => n * 10 + (c.toNat - 48)) 0

/-- Unsigned decimal literal of Python `float()`: digits with an optional
single decimal point, at least one digit overall.  (Exponent, `inf`/`nan`
and underscore forms accepted by CPython are outside the fragment the
source data uses and are not modelled.) -/
def parseDecimalCore (l : List Char) : Option ℚ :=
  let intPart := l.takeWhile isDigitChar
  let rest := l.dropWhile isDigitChar
  match rest with
  | [] => if intPart.isEmpty then none else some (digitsToNat intPart : ℚ)
  | '.' :: fracRest =>
    let fracPart := fracRest.takeWhile isDigitChar
    let rest2 := fracRest.dropWhile isDigitChar
    if rest2.isEmpty && (!intPart.isEmpty || !fracPart.isEmpty) then
      some ((digitsToNat intPart : ℚ) + (digitsToNat fracPart : ℚ) / (10 ^ fracPart.length : ℚ))
    else none
  | _ => none

/-- Model of Python `float(s)` on the decimal fragment: optional surrounding
whitespace, optional sign, decimal literal; `none` when conversion fails
(CPython raises `ValueError`). -/
def pyFloat (s : String) : Option ℚ :=
  match pyStripChars s.data with
  | '-' :: rest => (parseDecimalCore rest).map (fun q => -q)
  | '+' :: rest => parseDecimalCore rest
  | l => parseDecimalCore l

/-- Model of Python `int(s)`: optional surrounding whitespace, optional sign,
one or more digits; `none` when conversion fails. -/
def pyInt (s : String) : Option Int :=
  match pyStripChars s.data with
  | '-' :: rest =>
    if rest ≠ [] && rest.all isDigitChar then some (-(digitsToNat rest : Int)) else none
  | '+' :: rest =>
    if rest ≠ [] && rest.all isDigitChar then some ((digitsToNat rest : Int)) else none
  | l =>
    if l ≠ [] && l.all isDigitChar then some ((digitsToNat l : Int)) else none

/-- Python runtime errors the extraction code can raise. -/
inductive PyErr where
  | unboundLocalError
  | indexError
  | valueError
  deriving DecidableEq

/-- Model of Python list indexing `l[i]` for a nonnegative index
(raises `IndexError` out of range). -/
def pyGet (l : List α) (i : Nat) : Except PyErr α :=
  match l.get? i with
  | some x => .ok x
  | none => .error .indexError

/-- Model of Python `l[-1]` (raises `IndexError` on an empty list). -/
def pyLast (l : List α) : Except PyErr α :=
  match l.getLast? with
  | some x => .ok x
  | none => .error .indexError

/-- Python slice bound adjustment: negative indices count from the end,
then bounds are clamped to `[0, n]`. -/
def pyBound (n : Nat) (i : Int) : Nat :=
  if i < 0 then (i + n).toNat else min i.toNat n

/-- Model of the Python slice `l[i:j]`. -/
def pySlice (l : List α) (i j : Int) : List α :=
  (l.take (pyBound l.length j)).drop (pyBound l.length i)

/-- Model of the Python slice `l[i:]`. -/
def pySliceFrom (l : List α) (i : Int) : List α :=
  l.drop (pyBound l.length i)

/-! ### Segmenter: `split_by_team_experiences` -/

/-- Match of the stripped summary-line regex `^\d+\s*-\s*\d+$`. -/
def matchSummary (l : List Char) : Bool :=
  let d1 := l.takeWhile isDigitChar
  let r1 := l.dropWhile isDigitChar
  match r1.dropWhile isSpaceChar with
  | '-' :: r3 =>
    let r4 := r3.dropWhile isSpaceChar
    let d2 := r4.takeWhile isDigitChar
    let r5 := r4.dropWhile isDigitChar
    !d1.isEmpty && !d2.isEmpty && r5.isEmpty
  | _ => false

/-- Summary-line test applied to the stripped line, as in the source
(`re.match(r'^\d+\s*-\s*\d+$', line.strip())`). -/
def isSummaryLine (s : String) : Bool := matchSummary (strStrip s).data

/-- Accumulator loop of `split_by_team_experiences`: each (stripped) line is
appended to the current block; a summary line closes the block. -/
def splitGo : List String → List String → List (List String)
  | [], cur => if cur.isEmpty then [] else [cur]
  | l :: ls, cur =>
    let s := strStrip l
    let cur' := cur ++ [s]
    if isSummaryLine s then cur' :: splitGo ls [] else splitGo ls cur'

/-- Embedding of `split_by_team_experiences` (document lines to blocks). -/
def split_by_team_experiences (lines : List String) : List (List String) :=
  splitGo lines []

/-! ### Noise-line classification and year/tournament inference -/

/-- Page-break indicator substrings from `is_page_break_line`. -/
def pageBreakIndicators : List String :=
  ["Tuesday", "Wednesday", "Thursday", "Friday", "Saturday", "Sunday",
   "Monday", "Page", "Team Policy", "Preliminary Round Results"]

/-- Weekday names used when filtering candidate tournament names. -/
def dayNames : List String :=
  ["Tuesday", "Wednesday", "Thursday", "Friday", "Saturday", "Sunday", "Monday"]

/-- Non-weekday page-break indicators checked by the second pass of
`extract_tournament_info_from_text`. -/
def otherIndicators : List String := ["Page", "Team Policy", "Preliminary Round Results"]

/-- Attempt to match `20\d{2}` with a trailing word boundary at the head
of the character list. -/
def yearAt : List Char → Option (List Char)
  | '2' :: '0' :: c :: d :: rest =>
    if isDigitChar c && isDigitChar d &&
        (match rest with | [] => true | e :: _ => !isWordChar e) then
      some ['2', '0', c, d]
    else none
  | _ => none

/-- Left-to-right scan for `\b(20\d{2})\b`, tracking the previous character
for the leading word boundary. -/
def findYearAux (prev : Option Char) : List Char → Option (List Char)
  | [] => none
  | c :: rest =>
    let boundary : Bool := match prev with | none => true | some p => !isWordChar p
    match (if boundary then yearAt (c :: rest) else none) with
    | some y => some y
    | none => findYearAux (some c) rest

/-- Model of `re.search(r'\b(20\d{2})\b', line)`, returning the matched year. -/
def findYearToken (s : String) : Option String :=
  (findYearAux none s.data).map fun l => ⟨l⟩

/-- Embedding of `is_page_break_line`. -/
def is_page_break_line (line : String) : Bool :=
  pageBreakIndicators.any (fun ind => strContains line ind) || (findYearToken line).isSome

/-- Embedding of `extract_year_from_filename` (first four characters, must
be digits starting with `20`). -/
def extract_year_from_filename (filename : Option String) : Option String :=
  match filename with
  | none => none
  | some f =>
    if 4 ≤ f.data.length then
      let ys := f.data.take 4
      if leadsWith ['2', '0'] ys && ys.all isDigitChar then some ⟨ys⟩ else none
    else none

/-- String-level `str.replace` wrapper. -/
def pyReplaceStr (s pat repl : String) : String :=
  ⟨pyReplaceChars s.data pat.data repl.data⟩

/-- First pass of `extract_tournament_info_from_text`: the first page-break
line containing a year token yields the year and possibly a tournament
name (the line with the year removed, unless empty or a weekday line). -/
def tournamentFirstPass : List String → Option (String × Option String)
  | [] => none
  | l :: ls =>
    let line := strStrip l
    if is_page_break_line line then
      match findYearToken line with
      | some y =>
        let potential := strStrip (pyReplaceStr line y "")
        if potential ≠ "" ∧ ¬ (dayNames.any (fun d => strContains potential d) = true) then
          some (y, some potential)
        else
          some (y, none)
      | none => tournamentFirstPass ls
    else tournamentFirstPass ls

/-- Second pass of `extract_tournament_info_from_text`: the first page-break
line with no year token, no weekday, no other indicator and nonempty text
is taken as the tournament name. -/
def tournamentSecondPass : List String → Option String
  | [] => none
  | l :: ls =>
    let line := strStrip l
    if is_page_break_line line
        ∧ (findYearToken line).isNone
        ∧ ¬ (dayNames.any (fun d => strContains line d) = true)
        ∧ ¬ (otherIndicators.any (fun ind => strContains line ind) = true)
        ∧ line ≠ "" then
      some line
    else tournamentSecondPass ls

/-- Embedding of `extract_tournament_info_from_text`: returns
(tournament name, optional year). -/
def extract_tournament_info_from_text (lines : List String) : String × Option String :=
  match tournamentFirstPass lines with
  | some (y, some t) => (t, some y)
  | some (y, none) =>
    match tournamentSecondPass lines with
    | some t => (t, some y)
    | none => ("Unknown Tournament", some y)
  | none => ("Unknown Tournament", none)

/-- Year/tournament actually used by `extract_rounds_from_text`: the filename
year wins, then the text-derived year, then the `"Unknown"` defaults. -/
def chosenYearTournament (lines : List String) (filename : Option String) : String × String :=
  let fromFile := extract_year_from_filename filename
  let ti := extract_tournament_info_from_text lines
  match (match fromFile with | some y => some y | none => ti.2) with
  | some y => (ti.1, y)
  | none => ("Unknown Tournament", "Unknown")

/-- Specification-side year scan: the first page-break line holding a
`\b20\d{2}\b` token yields that token (used to state claim C8 without
repeating the tournament-name plumbing). -/
def scanLinesForYear : List String → Option String
  | [] => none
  | l :: ls =>
    if is_page_break_line (strStrip l) then
      match findYearToken (strStrip l) with
      | some y => some y
      | none => scanLinesForYear ls
    else scanLinesForYear ls

/-! ### Round parser -/

/-- Terminal tokens closing a round group. -/
def terminalTokens : List String := ["W", "L", "BYE", "FORFEIT"]

/-- Grouping loop of `split_team_into_round_experiences`: skip empty lines,
accumulate the current round, close it (prepending the team header) at a
terminal token.  Lines left after the last terminal token are dropped. -/
def roundLoop (teamInfo : List String) : List String → List String → List (List String)
  | [], _ => []
  | l :: ls, cur =>
    if l = "" then roundLoop teamInfo ls cur
    else
      let cur' := cur ++ [l]
      if terminalTokens.contains l then (teamInfo ++ cur') :: roundLoop teamInfo ls []
      else roundLoop teamInfo ls cur'

/-- Embedding of `split_team_into_round_experiences`.  When no line is a
terminal token the Python loop never assigns `first_round_experience` and
the subsequent read raises `UnboundLocalError`. -/
def split_team_into_round_experiences (team_lines : List String) :
    Except PyErr (List (List String)) :=
  match team_lines.findIdx? (fun l => terminalTokens.contains l) with
  | none => .error .unboundLocalError
  | some i =>
    let tok := team_lines.getD i ""
    let offset : Int := if tok = "BYE" then 4 else if tok = "FORFEIT" then 3 else 6
    let team_info := pySlice team_lines ((i : Int) - offset - 3) ((i : Int) - offset)
    let round_lines := pySliceFrom team_lines ((i : Int) - offset)
    .ok (roundLoop team_info round_lines [])

/-- One side's parsed record of one round (the dictionary built by
`parse_round_experience`; `Round` is attached by `parse_team_experience`
and `Source_File` by the per-document driver). -/
structure RoundRec where
  Team_Code : String
  Tournament_Name : String
  Year : String
  Member1_Name : String
  Member2_Name : String
  Member1_Points : ℚ
  Member1_Rank : Int
  Member2_Points : ℚ
  Member2_Rank : Int
  Opponent_Code : String
  Side : String
  Result : String
  Won : Nat
  Round : Nat := 0
  Source_File : String := ""
  deriving DecidableEq

/-- Numeric field conversion `float(line.rstrip('*'))`; failure models the
uncaught `ValueError`. -/
def parseNumF (s : String) : Except PyErr ℚ :=
  match pyFloat (rstripStar s) with
  | some q => .ok q
  | none => .error .valueError

/-- Numeric field conversion `int(line.rstrip('*'))`; failure models the
uncaught `ValueError`. -/
def parseNumI (s : String) : Except PyErr Int :=
  match pyInt (rstripStar s) with
  | some n => .ok n
  | none => .error .valueError

/-- Embedding of `parse_round_experience`.  `.ok none` models the explicit
`return None` paths (missing team code, unrecognized terminal token);
`.error` models an uncaught exception. -/
def parse_round_experience (rl : List String) (tname year : String) :
    Except PyErr (Option RoundRec) :=
  match pyGet rl 0 with
  | .error e => .error e
  | .ok member1_name =>
  match pyGet rl 1 with
  | .error e => .error e
  | .ok team_code_line =>
  match pyGet rl 2 with
  | .error e => .error e
  | .ok member2_name =>
  match (pyWords team_code_line).head? with
  | none => .ok none
  | some team_code =>
  match pyLast rl with
  | .error e => .error e
  | .ok result =>
  if terminalTokens.contains result = false then .ok none
  else if result = "FORFEIT" then
    .ok (some
      { Team_Code := team_code, Tournament_Name := tname, Year := year,
        Member1_Name := member1_name, Member2_Name := member2_name,
        Member1_Points := 0, Member1_Rank := 4,
        Member2_Points := 0, Member2_Rank := 4,
        Opponent_Code := "FORFEIT", Side := "Aff", Result := "L", Won := 0 })
  else if result = "BYE" then
    match pyGet rl 3 with
    | .error e => .error e
    | .ok l3 =>
    match parseNumF l3 with
    | .error e => .error e
    | .ok m1p =>
    match pyGet rl 4 with
    | .error e => .error e
    | .ok l4 =>
    match parseNumI l4 with
    | .error e => .error e
    | .ok m1r =>
    match pyGet rl 5 with
    | .error e => .error e
    | .ok l5 =>
    match parseNumF l5 with
    | .error e => .error e
    | .ok m2p =>
    match pyGet rl 6 with
    | .error e => .error e
    | .ok l6 =>
    match parseNumI l6 with
    | .error e => .error e
    | .ok m2r =>
      .ok (some
        { Team_Code := team_code, Tournament_Name := tname, Year := year,
          Member1_Name := member1_name, Member2_Name := member2_name,
          Member1_Points := m1p, Member1_Rank := m1r,
          Member2_Points := m2p, Member2_Rank := m2r,
          Opponent_Code := "BYE", Side := "Aff", Result := "W", Won := 1 })
  else
    match pyGet rl 8 with
    | .error e => .error e
    | .ok side =>
    match pyGet rl 9 with
    | .error e => .error e
    | .ok result2 =>
    match pyGet rl 3 with
    | .error e => .error e
    | .ok l3 =>
    match parseNumF l3 with
    | .error e => .error e
    | .ok m1p =>
    match pyGet rl 4 with
    | .error e => .error e
    | .ok l4 =>
    match parseNumI l4 with
    | .error e => .error e
    | .ok m1r =>
    match pyGet rl 5 with
    | .error e => .error e
    | .ok l5 =>
    match parseNumF l5 with
    | .error e => .error e
    | .ok m2p =>
    match pyGet rl 6 with
    | .error e => .error e
    | .ok l6 =>
    match parseNumI l6 with
    | .error e => .error e
    | .ok m2r =>
    match pyGet rl 7 with
    | .error e => .error e
    | .ok opp =>
      .ok (some
        { Team_Code := team_code, Tournament_Name := tname, Year := year,
          Member1_Name := member1_name, Member2_Name := member2_name,
          Member1_Points := m1p, Member1_Rank := m1r,
          Member2_Points := m2p, Member2_Rank := m2r,
          Opponent_Code := opp, Side := side, Result := result2,
          Won := if result2 = "W" then 1 else 0 })

/-- Round-numbering loop of `parse_team_experience`: the counter advances
only on successfully parsed rounds; `None` results are logged and skipped;
exceptions propagate. -/
def assignRounds (tname year : String) :
    List (List String) → Nat → Except PyErr (List RoundRec)
  | [], _ => .ok []
  | g :: gs, n =>
    match parse_round_experience g tname year with
    | .error e => .error e
    | .ok none => assignRounds tname year gs n
    | .ok (some r0) =>
      match assignRounds tname year gs (n + 1) with
      | .error e => .error e
      | .ok rest => .ok ({ r0 with Round := n } :: rest)

/-- Embedding of `parse_team_experience`. -/
def parse_team_experience (team_lines : List String) (tname year : String) :
    Except PyErr (List RoundRec) :=
  match split_team_into_round_experiences team_lines with
  | .error e => .error e
  | .ok groups => assignRounds tname year groups 1

/-- Embedding of `clean_team_experience` (drop empty and page-break lines). -/
def clean_team_experience (team_lines : List String) : List String :=
  team_lines.filter (fun l => !(l == "") && !is_page_break_line l)

/-- Per-block loop of `extract_rounds_from_text`: blocks with fewer than 3
cleaned lines are skipped; parsed rounds are concatenated; exceptions
propagate. -/
def extractLoop (tname year : String) : List (List String) → Except PyErr (List RoundRec)
  | [] => .ok []
  | exp :: rest =>
    let cleaned := clean_team_experience exp
    if cleaned.length < 3 then extractLoop tname year rest
    else
      match parse_team_experience cleaned tname year with
      | .error e => .error e
      | .ok team_rounds =>
        match extractLoop tname year rest with
        | .error e => .error e
        | .ok more => .ok (team_rounds ++ more)

/-- Embedding of `extract_rounds_from_text` on a document given as a list of
lines plus the optional identifying filename. -/
def extract_rounds_from_text (lines : List String) (filename : Option String) :
    Except PyErr (List RoundRec) :=
  let ty := chosenYearTournament lines filename
  extractLoop ty.1 ty.2 (split_by_team_experiences lines)

/-! ### Reconciliation engine: `merge_duplicate_rounds` -/

/-- Event context (tournament, year, source file) used to group observations. -/
abbrev Ctx := String × String × String

/-- Context of an observation. -/
def ctxOf (r : RoundRec) : Ctx := (r.Tournament_Name, r.Year, r.Source_File)

/-- Two-sided merged match record (the dictionary built by
`merge_duplicate_rounds`). -/
structure MergedRec where
  Round_Number : Nat
  Tournament_Name : String
  Year : String
  Source_File : String
  Team1_Code : String
  Team1_Side : String
  Team1_Member1_Name : String
  Team1_Member2_Name : String
  Team1_Member1_Points : ℚ
  Team1_Member1_Rank : Int
  Team1_Member2_Points : ℚ
  Team1_Member2_Rank : Int
  Team1_Won : Nat
  Team2_Code : String
  Team2_Side : String
  Team2_Member1_Name : String
  Team2_Member2_Name : String
  Team2_Member1_Points : ℚ
  Team2_Member1_Rank : Int
  Team2_Member2_Points : ℚ
  Team2_Member2_Rank : Int
  Team2_Won : Nat
  deriving DecidableEq

/-- Lexicographic code-point comparison, models Python string `<=` as used
by `sorted`. -/
def lexLe : List Char → List Char → Bool
  | [], _ => true
  | _ :: _, [] => false
  | a :: as, b :: bs =>
    if a.toNat < b.toNat then true
    else if b.toNat < a.toNat then false
    else lexLe as bs

/-- Canonical processed-pairs key:
`tuple(sorted([team_a, team_b]) + [round_num, tournament, year, source_file])`. -/
structure PairKey where
  lo : String
  hi : String
  round : Nat
  tournament : String
  year : String
  source : String
  deriving DecidableEq

/-- Build the canonical key by sorting the two team codes. -/
def mkPairKey (a b : String) (r : Nat) (c : Ctx) : PairKey :=
  if lexLe a.data b.data then ⟨a, b, r, c.1, c.2.1, c.2.2⟩
  else ⟨b, a, r, c.1, c.2.1, c.2.2⟩

/-- Degenerate record emitted directly for a BYE/FORFEIT opponent
(source lines 382–405).  Note the source computes
`Team2_Won = 0 if team_b == 'FORFEIT' else 1`. -/
def mkByeForfeitRecord (row : RoundRec) : MergedRec :=
  { Round_Number := row.Round, Tournament_Name := row.Tournament_Name,
    Year := row.Year, Source_File := row.Source_File,
    Team1_Code := row.Team_Code, Team1_Side := row.Side,
    Team1_Member1_Name := row.Member1_Name, Team1_Member2_Name := row.Member2_Name,
    Team1_Member1_Points := row.Member1_Points, Team1_Member1_Rank := row.Member1_Rank,
    Team1_Member2_Points := row.Member2_Points, Team1_Member2_Rank := row.Member2_Rank,
    Team1_Won := row.Won,
    Team2_Code := row.Opponent_Code,
    Team2_Side := if row.Side = "Aff" then "Neg" else "Aff",
    Team2_Member1_Name := "", Team2_Member2_Name := "",
    Team2_Member1_Points := 0, Team2_Member1_Rank := 0,
    Team2_Member2_Points := 0, Team2_Member2_Rank := 0,
    Team2_Won := if row.Opponent_Code = "FORFEIT" then 0 else 1 }

/-- Paired record for a found reciprocal (source lines 478–501). -/
def mkMergedRecord (row team2 : RoundRec) : MergedRec :=
  { Round_Number := row.Round, Tournament_Name := row.Tournament_Name,
    Year := row.Year, Source_File := row.Source_File,
    Team1_Code := row.Team_Code, Team1_Side := row.Side,
    Team1_Member1_Name := row.Member1_Name, Team1_Member2_Name := row.Member2_Name,
    Team1_Member1_Points := row.Member1_Points, Team1_Member1_Rank := row.Member1_Rank,
    Team1_Member2_Points := row.Member2_Points, Team1_Member2_Rank := row.Member2_Rank,
    Team1_Won := if row.Result = "W" then 1 else 0,
    Team2_Code := team2.Team_Code, Team2_Side := team2.Side,
    Team2_Member1_Name := team2.Member1_Name, Team2_Member2_Name := team2.Member2_Name,
    Team2_Member1_Points := team2.Member1_Points, Team2_Member1_Rank := team2.Member1_Rank,
    Team2_Member2_Points := team2.Member2_Points, Team2_Member2_Rank := team2.Member2_Rank,
    Team2_Won := if team2.Result = "W" then 1 else 0 }

/-- Synthetic reciprocal built when the opponent's own row records a
FORFEIT (source lines 445–453). -/
def synthesizeForfeitOpponent (row forfeiter : RoundRec) : RoundRec :=
  { forfeiter with
    Opponent_Code := row.Team_Code, Result := "L", Won := 0,
    Member1_Points := 0, Member1_Rank := 4,
    Member2_Points := 0, Member2_Rank := 4,
    Side := if row.Side = "Aff" then "Neg" else "Aff" }

/-- Partial record emitted for an unmatched observation (source lines
530–553): opponent names get the `MISSING_DATA` sentinel, opponent points
and ranks get 0. -/
def mkUnmatchedRecord (row : RoundRec) : MergedRec :=
  { Round_Number := row.Round, Tournament_Name := row.Tournament_Name,
    Year := row.Year, Source_File := row.Source_File,
    Team1_Code := row.Team_Code, Team1_Side := row.Side,
    Team1_Member1_Name := row.Member1_Name, Team1_Member2_Name := row.Member2_Name,
    Team1_Member1_Points := row.Member1_Points, Team1_Member1_Rank := row.Member1_Rank,
    Team1_Member2_Points := row.Member2_Points, Team1_Member2_Rank := row.Member2_Rank,
    Team1_Won := if row.Result = "W" then 1 else 0,
    Team2_Code := row.Opponent_Code,
    Team2_Side := if row.Side = "Aff" then "Neg" else "Aff",
    Team2_Member1_Name := "MISSING_DATA", Team2_Member2_Name := "MISSING_DATA",
    Team2_Member1_Points := 0, Team2_Member1_Rank := 0,
    Team2_Member2_Points := 0, Team2_Member2_Rank := 0,
    Team2_Won := if row.Result = "W" then 0 else 1 }

/-- Exact-reciprocal filter predicate of strategy 1
(`Team_Code == team_b`, `Opponent_Code == team_a`, `Round == round_num`). -/
def rowMatchB (team opp : String) (r : Nat) (w : RoundRec) : Bool :=
  w.Team_Code == team && w.Opponent_Code == opp && w.Round == r

/-- Rows of the event-context group of a given context (the pandas group:
same tournament, year and source file, in original order). -/
def groupOf (df : List RoundRec) (c : Ctx) : List RoundRec :=
  df.filter (fun w => ctxOf w == c)

/-- Reciprocal search, strategies 1–3 in priority order.  The second
component records whether the multiple-exact-match warning fired. -/
def findReciprocal (g : List RoundRec) (row : RoundRec) : Option RoundRec × Bool :=
  let team_a := row.Team_Code
  let team_b := row.Opponent_Code
  let rnd := row.Round
  match g.filter (rowMatchB team_b team_a rnd) with
  | [m] => (some m, false)
  | m :: _ :: _ => (some m, true)
  | [] =>
    match g.filter (rowMatchB team_b "FORFEIT" rnd) with
    | [f] => (some (synthesizeForfeitOpponent row f), false)
    | _ =>
      if row.Result = "L" ∧ row.Opponent_Code ≠ "FORFEIT" then
        if row.Member1_Points = 0 ∧ row.Member2_Points = 0 then
          match g.filter (fun w =>
              w.Team_Code == team_b && w.Round == rnd && w.Result == "W") with
          | [m] => (some m, false)
          | _ => (none, false)
        else (none, false)
      else (none, false)

/-- Mutable state of the merge loop: emitted records, processed pair keys,
unmatched observations, and the count of multiple-match warnings (the
source reports these via `print`). -/
structure MergeState where
  merged : List MergedRec
  processedPairs : List PairKey
  unmatched : List RoundRec
  multiMatchWarnings : Nat
  deriving DecidableEq

/-- Body of the per-observation loop of `merge_duplicate_rounds`. -/
def processRow (df : List RoundRec) (st : MergeState) (row : RoundRec) : MergeState :=
  let c := ctxOf row
  if row.Opponent_Code = "BYE" ∨ row.Opponent_Code = "FORFEIT" then
    { st with merged := st.merged ++ [mkByeForfeitRecord row] }
  else
    let key := mkPairKey row.Team_Code row.Opponent_Code row.Round c
    if key ∈ st.processedPairs then st
    else
      match findReciprocal (groupOf df c) row with
      | (some opp, warn) =>
        { st with merged := st.merged ++ [mkMergedRecord row opp],
                  processedPairs := st.processedPairs ++ [key],
                  multiMatchWarnings := st.multiMatchWarnings + (if warn then 1 else 0) }
      | (none, _) => { st with unmatched := st.unmatched ++ [row] }

/-- Context keys in order of first appearance.  (pandas `groupby` iterates
groups in sorted-key order; only the relative order of whole groups in the
output differs, which no statement below depends on.) -/
def ctxScan : List RoundRec → List Ctx → List Ctx
  | [], acc => acc.reverse
  | r :: rs, acc =>
    if ctxOf r ∈ acc then ctxScan rs acc else ctxScan rs (ctxOf r :: acc)

/-- Distinct contexts of a batch. -/
def ctxList (df : List RoundRec) : List Ctx := ctxScan df []

/-- Observations in group-major iteration order (each context's rows keep
their original order, as in pandas). -/
def orderedRows (df : List RoundRec) : List RoundRec :=
  (ctxList df).flatMap (fun c => groupOf df c)

/-- Full state after the grouped matching loop of `merge_duplicate_rounds`
(before the unmatched fallback pass). -/
def mergeRun (df : List RoundRec) : MergeState :=
  (orderedRows df).foldl (processRow df) ⟨[], [], [], 0⟩

/-- Embedding of `merge_duplicate_rounds`: the matched/degenerate records in
emission order, followed by one fallback record per unmatched observation. -/
def merge_duplicate_rounds (df : List RoundRec) : List MergedRec :=
  let st := mergeRun df
  st.merged ++ st.unmatched.map mkUnmatchedRecord

/-! ### Identity resolver: `NameNormalizer.normalize` under the built-in
default configuration of `join_rounds_with_teams.py` (all five stages
enabled; surname prefixes `de la → dela`, `van der → vander`, `mac → mc`;
punctuation `' - .` removed; unicode `ñ → n`, `ç → c`). -/

/-- Model of `' '.join(text.split())` (whitespace collapse). -/
def collapseWs (l : List Char) : List Char :=
  List.intercalate [' '] (pyWordsAux l [])

/-- ASCII case folding plus the uppercase forms of the default unicode
table.  (Python `str.lower` is full Unicode; this models its action on the
alphabet relevant to the default configuration.) -/
def lowerChar (c : Char) : Char :=
  if 65 ≤ c.toNat ∧ c.toNat ≤ 90 then Char.ofNat (c.toNat + 32)
  else if c = 'Ñ' then 'ñ'
  else if c = 'Ç' then 'ç'
  else c

/-- Model of `_normalize_case`. -/
def lowerStr (l : List Char) : List Char := l.map lowerChar

/-- Default surname-prefix rules, in dict insertion order. -/
def surnameRules : List (List Char × List Char) :=
  [("de la".data, "dela".data), ("van der".data, "vander".data), ("mac".data, "mc".data)]

/-- One surname-prefix rule of `_normalize_surname_prefixes`: the patterns
`' X '`, `' X'`, `'X '` are each replaced (in that order) by `' R'`. -/
def applyPrefixRule (s : List Char) (orig repl : List Char) : List Char :=
  let s1 := pyReplaceChars s ([' '] ++ orig ++ [' ']) ([' '] ++ repl)
  let s2 := pyReplaceChars s1 ([' '] ++ orig) ([' '] ++ repl)
  pyReplaceChars s2 (orig ++ [' ']) ([' '] ++ repl)

/-- Model of `_normalize_surname_prefixes` over the default rules. -/
def surnameStage (s : List Char) : List Char :=
  surnameRules.foldl (fun acc p => applyPrefixRule acc p.1 p.2) s

/-- Model of `_normalize_punctuation` over the default rules
(remove apostrophes, hyphens and periods, in that order). -/
def punctStage (s : List Char) : List Char :=
  pyReplaceChars (pyReplaceChars (pyReplaceChars s [Char.ofNat 39] []) ['-'] []) ['.'] []

/-- Model of `_normalize_unicode` over the default rules: each mapping is
applied to the character and to its uppercase form. -/
def unicodeStage (s : List Char) : List Char :=
  pyReplaceChars (pyReplaceChars (pyReplaceChars (pyReplaceChars
    s ['ñ'] ['n']) ['Ñ'] ['N']) ['ç'] ['c']) ['Ç'] ['C']

/-- Embedding of `NameNormalizer.normalize` under the default configuration:
strip, then whitespace collapse, case folding, surname-prefix collapsing,
punctuation removal and unicode transliteration, in pipeline order. -/
def normalize (name : List Char) : List Char :=
  if name = [] then []
  else unicodeStage (punctStage (surnameStage (lowerStr (collapseWs (pyStripChars name)))))

/-- Concrete BYE observation (team won its bye, as the round parser forces). -/
def byeRowC2 : RoundRec :=
  { Team_Code := "ABC", Tournament_Name := "T", Year := "2020",
    Member1_Name := "John Smith", Member2_Name := "Jane Doe",
    Member1_Points := 28, Member1_Rank := 1, Member2_Points := 27, Member2_Rank := 2,
    Opponent_Code := "BYE", Side := "Aff", Result := "W", Won := 1,
    Round := 1, Source_File := "f.pdf" }

/-- Concrete FORFEIT observation (team forfeited and lost, zero stats, as the
round parser forces). -/
def forfeitRowC2 : RoundRec :=
  { Team_Code := "ABC", Tournament_Name := "T", Year := "2020",
    Member1_Name := "John Smith", Member2_Name := "Jane Doe",
    Member1_Points := 0, Member1_Rank := 4, Member2_Points := 0, Member2_Rank := 4,
    Opponent_Code := "FORFEIT", Side := "Aff", Result := "L", Won := 0,
    Round := 1, Source_File := "f.pdf" }

/-- Concrete observation with opponent `QRS` and no reciprocal anywhere. -/
def qrsRowC3 : RoundRec :=
  { Team_Code := "ABC", Tournament_Name := "T", Year := "2020",
    Member1_Name := "John Smith", Member2_Name := "Jane Doe",
    Member1_Points := 28, Member1_Rank := 1, Member2_Points := 27, Member2_Rank := 2,
    Opponent_Code := "QRS", Side := "Aff", Result := "W", Won := 1,
    Round := 1, Source_File := "f.pdf" }

/-- Reciprocal observation A vs B where A reports a loss. -/
def rowALC5 : RoundRec :=
  { Team_Code := "AAA", Tournament_Name := "T", Year := "2020",
    Member1_Name := "a1", Member2_Name := "a2",
    Member1_Points := 27, Member1_Rank := 2, Member2_Points := 26, Member2_Rank := 3,
    Opponent_Code := "BBB", Side := "Aff", Result := "L", Won := 0,
    Round := 1, Source_File := "f.pdf" }

/-- Reciprocal observation B vs A where B also reports a loss. -/
def rowBLC5 : RoundRec :=
  { Team_Code := "BBB", Tournament_Name := "T", Year := "2020",
    Member1_Name := "b1", Member2_Name := "b2",
    Member1_Points := 25, Member1_Rank := 4, Member2_Points := 24, Member2_Rank := 1,
    Opponent_Code := "AAA", Side := "Neg", Result := "L", Won := 0,
    Round := 1, Source_File := "f.pdf" }

/-- Boolean test that one observation is the `(team, opponent, round)` row of
a given context: the strategy-1 filter restricted to one pandas group. -/
def pairRowB (a b : String) (r : Nat) (c : Ctx) (w : RoundRec) : Bool :=
  rowMatchB a b r w && (ctxOf w == c)

/-- Boolean test that a merged record is about the unordered pair `{a, b}`,
round `r` and context `c`. -/
def isPairRec (a b : String) (r : Nat) (c : Ctx) (m : MergedRec) : Bool :=
  ((m.Team1_Code == a && m.Team2_Code == b) || (m.Team1_Code == b && m.Team2_Code == a))
    && m.Round_Number == r
    && m.Tournament_Name == c.1 && m.Year == c.2.1 && m.Source_File == c.2.2

/-! ## Theorems -/

/-! ### Claim C6: block count of the segmenter -/

theorem splitGo_length (ls : List String) : ∀ cur : List String,
    (splitGo ls cur).length = ls.countP (fun l => isSummaryLine (strStrip l)) ∨
    (splitGo ls cur).length = ls.countP (fun l => isSummaryLine (strStrip l)) + 1 := by
  induction ls with
  | nil =>
    intro cur
    by_cases h : cur.isEmpty <;> simp [splitGo, h]
  | cons l ls ih =>
    intro cur
    rw [List.countP_cons]
    by_cases h : isSummaryLine (strStrip l)
    · simp only [splitGo, h, if_true, List.length_cons]
      rcases ih [] with h1 | h1 <;> simp [h] <;> omega
    · simp only [splitGo, h, if_false]
      rcases ih (cur ++ [strStrip l]) with h1 | h1 <;> simp [h] <;> omega

/-- Claim C6: for any input line stream, `split_by_team_experiences` produces
exactly as many blocks as there are stripped lines matching
`^\d+\s*-\s*\d+$`, plus at most one trailing partial block made of the
leftover lines. -/
theorem split_block_count (lines : List String) :
    (split_by_team_experiences lines).length =
        lines.countP (fun l => isSummaryLine (strStrip l)) ∨
    (split_by_team_experiences lines).length =
        lines.countP (fun l => isSummaryLine (strStrip l)) + 1 :=
  splitGo_length lines []

/-! ### Claim C10: a block with no terminal token makes the round splitter fail -/

/-- Claim C10: `split_team_into_round_experiences` is total only when the
cleaned block has a terminal token; on a block of 3 or more lines with no
`W`/`L`/`BYE`/`FORFEIT` line the loop index is never assigned and
evaluation raises `UnboundLocalError` instead of returning an empty list. -/
theorem no_terminal_unbound (b : List String) (hlen : 3 ≤ b.length)
    (hterm : ∀ l ∈ b, terminalTokens.contains l = false) :
    split_team_into_round_experiences b = .error .unboundLocalError := by
  have hnone : b.findIdx? (fun l => terminalTokens.contains l) = none :=
    List.findIdx?_eq_none_iff.mpr hterm
  unfold split_team_into_round_experiences
  rw [hnone]

/-- Witness for C10 at the concrete block `["a", "b", "c"]`. -/
theorem no_terminal_unbound_witness :
    split_team_into_round_experiences ["a", "b", "c"] = .error .unboundLocalError :=
  no_terminal_unbound ["a", "b", "c"] (by decide) (by decide)

/-! ### Claims C4 and C9: header recovery by backward offset; trailing lines -/

theorem findIdx?_of_first (p : α → Bool) (d : α) (l : List α) (i : Nat)
    (hi : i < l.length) (hp : p (l.getD i d) = true)
    (hfirst : ∀ j, j < i → p (l.getD j d) = false) :
    l.findIdx? p = some i := by
  rw [List.findIdx?_eq_some_iff_getElem]
  refine ⟨hi, ?_, ?_⟩
  · rwa [List.getD_eq_getElem l d hi] at hp
  · intro j hj
    have hj' := hfirst j hj
    rw [List.getD_eq_getElem l d (lt_trans hj hi)] at hj'
    simp [hj']

theorem pySlice_coe (l : List α) (a c : Nat) :
    pySlice l (a : Int) (c : Int) = (l.take (min c l.length)).drop (min a l.length) := by
  have ha : ¬((a : Int) < 0) := by omega
  have hc : ¬((c : Int) < 0) := by omega
  simp [pySlice, pyBound, ha, hc]

theorem pySliceFrom_coe (l : List α) (a : Nat) :
    pySliceFrom l (a : Int) = l.drop (min a l.length) := by
  have ha : ¬((a : Int) < 0) := by omega
  simp [pySliceFrom, pyBound, ha]

/-- Normal-form of the round splitter when the first terminal token sits at
index `i` and the backward offset `offN` leaves room for the 3 header
lines. -/
theorem split_team_ok (b : List String) (i offN : Nat)
    (hf : b.findIdx? (fun l => terminalTokens.contains l) = some i)
    (hoffdef : (if b.getD i "" = "BYE" then (4 : Int)
        else if b.getD i "" = "FORFEIT" then 3 else 6) = (offN : Int))
    (hoff : offN + 3 ≤ i) (hi : i < b.length) :
    split_team_into_round_experiences b =
      .ok (roundLoop ((b.drop (i - offN - 3)).take 3) (b.drop (i - offN)) []) := by
  have e2 : (i : Int) - (offN : Int) = ((i - offN : Nat) : Int) := by omega
  have e1 : ((i - offN : Nat) : Int) - 3 = ((i - offN - 3 : Nat) : Int) := by omega
  have m1 : min (i - offN - 3) b.length = i - offN - 3 := by omega
  have m2 : min (i - offN) b.length = i - offN := by omega
  have e3 : (i - offN) - (i - offN - 3) = 3 := by omega
  simp only [split_team_into_round_experiences, hf, hoffdef, e2, e1,
    pySlice_coe, pySliceFrom_coe, m1, m2, List.drop_take, e3]

theorem roundLoop_prefix (ti : List String) (rs : List String) : ∀ (cur : List String)
    (r0 : List String), r0 ∈ roundLoop ti rs cur → ∃ t, r0 = ti ++ t := by
  induction rs with
  | nil => simp [roundLoop]
  | cons l ls ih =>
    intro cur r0 h
    simp only [roundLoop] at h
    by_cases he : l = ""
    · simp only [he, if_true] at h
      exact ih cur r0 h
    · simp only [he, if_false] at h
      by_cases ht : terminalTokens.contains l
      · simp only [ht, if_true, List.mem_cons] at h
        rcases h with h | h
        · exact ⟨cur ++ [l], h⟩
        · exact ih [] r0 h
      · simp only [ht, if_false] at h
        exact ih (cur ++ [l]) r0 h

/-- Claim C4: on a cleaned block whose first terminal token sits at index
`i`, the round splitter applies the backward offset (6 for `W`/`L`, 4 for
`BYE`, 3 for `FORFEIT`), and every emitted round experience starts with the
3 lines immediately preceding `i - offset` as the recovered header. -/
theorem header_offset_rule (b : List String) (i : Nat)
    (hi : i < b.length)
    (hterm : terminalTokens.contains (b.getD i "") = true)
    (hfirst : ∀ j, j < i → terminalTokens.contains (b.getD j "") = false)
    (hoff : (if b.getD i "" = "BYE" then 4
        else if b.getD i "" = "FORFEIT" then 3 else 6) + 3 ≤ i) :
    ∃ rs, split_team_into_round_experiences b = .ok rs ∧
      ∀ r0 ∈ rs, ∃ t,
        r0 = (b.drop (i - (if b.getD i "" = "BYE" then 4
            else if b.getD i "" = "FORFEIT" then 3 else 6) - 3)).take 3 ++ t := by
  have hf := findIdx?_of_first (fun l => terminalTokens.contains l) "" b i hi hterm hfirst
  have hsplit : ∀ offN : Nat,
      (if b.getD i "" = "BYE" then (4 : Int)
        else if b.getD i "" = "FORFEIT" then 3 else 6) = (offN : Int) →
      offN + 3 ≤ i →
      (if b.getD i "" = "BYE" then 4
        else if b.getD i "" = "FORFEIT" then 3 else 6) = offN →
      ∃ rs, split_team_into_round_experiences b = .ok rs ∧
        ∀ r0 ∈ rs, ∃ t,
          r0 = (b.drop (i - (if b.getD i "" = "BYE" then 4
              else if b.getD i "" = "FORFEIT" then 3 else 6) - 3)).take 3 ++ t := by
    intro offN hdef hole hnat
    rw [hnat]
    exact ⟨_, split_team_ok b i offN hf hdef hole hi,
      fun r0 hr => roundLoop_prefix _ _ [] r0 hr⟩
  by_cases hB : b.getD i "" = "BYE"
  · rw [hB] at hoff
    simp at hoff
    exact hsplit 4 (by rw [hB]; simp) hoff (by rw [hB]; simp)
  · by_cases hF : b.getD i "" = "FORFEIT"
    · rw [if_neg hB, hF] at hoff
      simp at hoff
      exact hsplit 3 (by rw [if_neg hB, hF]; simp) hoff
        (by rw [if_neg hB, hF]; simp)
    · rw [if_neg hB, if_neg hF] at hoff
      exact hsplit 6 (by rw [if_neg hB, if_neg hF]; simp) hoff
        (by rw [if_neg hB, if_neg hF])

/-- Witness for C4 on a concrete regular block: the first terminal token is
`W` at index 9, the offset is 6, and the recovered header is lines 0–2. -/
theorem header_offset_rule_witness :
    ∃ rs, split_team_into_round_experiences
        ["John Smith", "ABC Club", "Jane Doe", "27.5*", "2", "28.0", "1",
         "XYZ", "Aff", "W", "2 - 0"] = .ok rs ∧
      ∀ r0 ∈ rs, ∃ t,
        r0 = (["John Smith", "ABC Club", "Jane Doe", "27.5*", "2", "28.0", "1",
           "XYZ", "Aff", "W", "2 - 0"].drop
             (9 - (if ["John Smith", "ABC Club", "Jane Doe", "27.5*", "2", "28.0",
                 "1", "XYZ", "Aff", "W", "2 - 0"].getD 9 "" = "BYE" then 4
               else if ["John Smith", "ABC Club", "Jane Doe", "27.5*", "2", "28.0",
                 "1", "XYZ", "Aff", "W", "2 - 0"].getD 9 "" = "FORFEIT" then 3
               else 6) - 3)).take 3 ++ t :=
  header_offset_rule
    ["John Smith", "ABC Club", "Jane Doe", "27.5*", "2", "28.0", "1",
     "XYZ", "Aff", "W", "2 - 0"] 9
    (by decide) (by decide) (by decide) (by decide)

theorem roundLoop_no_terminal (ti : List String) (junk : List String)
    (hjunk : ∀ l ∈ junk, terminalTokens.contains l = false) :
    ∀ cur, roundLoop ti junk cur = [] := by
  induction junk with
  | nil => intro cur; simp [roundLoop]
  | cons l ls ih =>
    intro cur
    have hl : terminalTokens.contains l = false := hjunk l (by simp)
    have hl' : l ∉ terminalTokens := by simpa using hl
    have ih' := ih (fun x hx => hjunk x (by simp [hx]))
    by_cases he : l = "" <;> simp [roundLoop, he, hl', ih']

theorem roundLoop_append_no_terminal (ti : List String) (xs junk : List String)
    (hjunk : ∀ l ∈ junk, terminalTokens.contains l = false) :
    ∀ cur, roundLoop ti (xs ++ junk) cur = roundLoop ti xs cur := by
  induction xs with
  | nil =>
    intro cur
    simpa [roundLoop] using roundLoop_no_terminal ti junk hjunk cur
  | cons l ls ih =>
    intro cur
    by_cases he : l = ""
    · simp [roundLoop, he, ih]
    · by_cases ht : terminalTokens.contains l <;> simp [roundLoop, he, ht, ih]

/-- Claim C9: lines trailing the block's last terminal token are silently
discarded: appending terminal-free junk after a well-formed block leaves the
output of `split_team_into_round_experiences` unchanged — no partial round is
emitted and no failure is signalled. -/
theorem trailing_lines_discarded (b junk : List String) (i : Nat)
    (hi : i < b.length)
    (hterm : terminalTokens.contains (b.getD i "") = true)
    (hfirst : ∀ j, j < i → terminalTokens.contains (b.getD j "") = false)
    (hoff : (if b.getD i "" = "BYE" then 4
        else if b.getD i "" = "FORFEIT" then 3 else 6) + 3 ≤ i)
    (hjunk : ∀ l ∈ junk, terminalTokens.contains l = false) :
    split_team_into_round_experiences (b ++ junk) =
      split_team_into_round_experiences b := by
  have hgd : ∀ j, j ≤ i → (b ++ junk).getD j "" = b.getD j "" := by
    intro j hj
    exact List.getD_append b junk "" j (lt_of_le_of_lt hj hi)
  have hgi := hgd i le_rfl
  have hf : b.findIdx? (fun l => terminalTokens.contains l) = some i :=
    findIdx?_of_first _ "" b i hi hterm hfirst
  have hf2 : (b ++ junk).findIdx? (fun l => terminalTokens.contains l) = some i := by
    refine findIdx?_of_first _ "" (b ++ junk) i ?_ ?_ ?_
    · simp only [List.length_append]; omega
    · rwa [hgi]
    · intro j hj
      rw [hgd j (le_of_lt hj)]
      exact hfirst j hj
  -- fix the offset by case analysis on the terminal token
  have main : ∀ offN : Nat,
      (if b.getD i "" = "BYE" then (4 : Int)
        else if b.getD i "" = "FORFEIT" then 3 else 6) = (offN : Int) →
      offN + 3 ≤ i →
      split_team_into_round_experiences (b ++ junk) =
        split_team_into_round_experiences b := by
    intro offN hdef hole
    have hdef2 : (if (b ++ junk).getD i "" = "BYE" then (4 : Int)
        else if (b ++ junk).getD i "" = "FORFEIT" then 3 else 6) = (offN : Int) := by
      rwa [hgi]
    rw [split_team_ok b i offN hf hdef hole hi,
      split_team_ok (b ++ junk) i offN hf2 hdef2 hole
        (by simp only [List.length_append]; omega)]
    have hd1 : (b ++ junk).drop (i - offN - 3) = b.drop (i - offN - 3) ++ junk :=
      List.drop_append_of_le_length (by omega)
    have hd2 : (b ++ junk).drop (i - offN) = b.drop (i - offN) ++ junk :=
      List.drop_append_of_le_length (by omega)
    have ht1 : (b.drop (i - offN - 3) ++ junk).take 3 = (b.drop (i - offN - 3)).take 3 :=
      List.take_append_of_le_length (by simp only [List.length_drop]; omega)
    rw [hd1, hd2, ht1, roundLoop_append_no_terminal _ _ _ hjunk]
  by_cases hB : b.getD i "" = "BYE"
  · refine main 4 (by rw [hB]; simp) ?_
    rw [hB] at hoff
    simp at hoff
    exact hoff
  · by_cases hF : b.getD i "" = "FORFEIT"
    · refine main 3 (by rw [if_neg hB, hF]; simp) ?_
      rw [if_neg hB, hF] at hoff
      simp at hoff
      exact hoff
    · refine main 6 (by rw [if_neg hB, if_neg hF]; simp) ?_
      rw [if_neg hB, if_neg hF] at hoff
      exact hoff

/-- Witness for C9: appending junk lines after a concrete block does not
change the split. -/
theorem trailing_lines_discarded_witness :
    split_team_into_round_experiences
        (["John Smith", "ABC Club", "Jane Doe", "27.5*", "2", "28.0", "1",
          "XYZ", "Aff", "W", "2 - 0"] ++ ["junk1", "junk2"]) =
      split_team_into_round_experiences
        ["John Smith", "ABC Club", "Jane Doe", "27.5*", "2", "28.0", "1",
         "XYZ", "Aff", "W", "2 - 0"] :=
  trailing_lines_discarded
    ["John Smith", "ABC Club", "Jane Doe", "27.5*", "2", "28.0", "1",
     "XYZ", "Aff", "W", "2 - 0"] ["junk1", "junk2"] 9
    (by decide) (by decide) (by decide) (by decide) (by decide)

/-! ### Claim C8: year inference (filename first, then boilerplate scan) -/

set_option maxHeartbeats 1000000 in
theorem parse_round_experience_year (rl : List String) (t y : String) (r0 : RoundRec)
    (h : parse_round_experience rl t y = .ok (some r0)) : r0.Year = y := by
  unfold parse_round_experience at h
  iterate 25 (all_goals try split at h)
  all_goals try (cases h)
  all_goals simp_all

theorem assignRounds_year (t y : String) (groups : List (List String)) :
    ∀ (n : Nat) (rs : List RoundRec), assignRounds t y groups n = .ok rs →
      ∀ r0 ∈ rs, r0.Year = y := by
  induction groups with
  | nil =>
    intro n rs h r0 hr
    simp only [assignRounds] at h
    cases h
    simp at hr
  | cons g gs ih =>
    intro n rs h r0 hr
    simp only [assignRounds] at h
    cases hp : parse_round_experience g t y with
    | error e => rw [hp] at h; cases h
    | ok o =>
      rw [hp] at h
      cases o with
      | none => exact ih n rs h r0 hr
      | some r1 =>
        cases ha : assignRounds t y gs (n + 1) with
        | error e => rw [ha] at h; cases h
        | ok rest =>
          rw [ha] at h
          cases h
          rcases List.mem_cons.mp hr with h1 | h1
          · subst h1
            exact parse_round_experience_year g t y r1 hp
          · exact ih (n + 1) rest ha r0 h1

theorem parse_team_experience_year (team_lines : List String) (t y : String)
    (rs : List RoundRec) (h : parse_team_experience team_lines t y = .ok rs) :
    ∀ r0 ∈ rs, r0.Year = y := by
  unfold parse_team_experience at h
  cases hs : split_team_into_round_experiences team_lines with
  | error e => rw [hs] at h; cases h
  | ok groups =>
    rw [hs] at h
    exact assignRounds_year t y groups 1 rs h

theorem extractLoop_year (t y : String) (exps : List (List String)) :
    ∀ rs : List RoundRec, extractLoop t y exps = .ok rs → ∀ r0 ∈ rs, r0.Year = y := by
  induction exps with
  | nil =>
    intro rs h r0 hr
    simp only [extractLoop] at h
    cases h
    simp at hr
  | cons exp rest ih =>
    intro rs h r0 hr
    simp only [extractLoop] at h
    by_cases hlen : (clean_team_experience exp).length < 3
    · rw [if_pos hlen] at h
      exact ih rs h r0 hr
    · rw [if_neg hlen] at h
      cases hp : parse_team_experience (clean_team_experience exp) t y with
      | error e => rw [hp] at h; cases h
      | ok team_rounds =>
        rw [hp] at h
        cases hm : extractLoop t y rest with
        | error e => rw [hm] at h; cases h
        | ok more =>
          rw [hm] at h
          cases h
          rcases List.mem_append.mp hr with h1 | h1
          · exact parse_team_experience_year _ t y team_rounds hp r0 h1
          · exact ih more hm r0 h1

theorem firstPass_year_eq_scan (lines : List String) :
    (tournamentFirstPass lines).map (fun p => p.1) = scanLinesForYear lines := by
  induction lines with
  | nil => simp [tournamentFirstPass, scanLinesForYear]
  | cons l ls ih =>
    simp only [tournamentFirstPass, scanLinesForYear]
    by_cases hp : is_page_break_line (strStrip l)
    · simp only [hp, if_true]
      cases hy : findYearToken (strStrip l) with
      | none => simpa using ih
      | some y =>
        split
        · split <;> rfl
        · simp_all
    · simpa [hp] using ih

theorem tournament_info_year_eq_scan (lines : List String) :
    (extract_tournament_info_from_text lines).2 = scanLinesForYear lines := by
  rw [← firstPass_year_eq_scan]
  unfold extract_tournament_info_from_text
  cases h : tournamentFirstPass lines with
  | none => simp
  | some p =>
    rcases p with ⟨y, t?⟩
    cases t? with
    | none => cases h2 : tournamentSecondPass lines <;> simp
    | some t => simp

theorem extract_year_from_filename_eq (f : String) :
    extract_year_from_filename (some f) =
      (if 4 ≤ f.data.length ∧ leadsWith ['2', '0'] (f.data.take 4) = true
          ∧ (f.data.take 4).all isDigitChar = true
        then some (String.mk (f.data.take 4)) else none) := by
  show (if 4 ≤ f.data.length then
      let ys := f.data.take 4
      if leadsWith ['2', '0'] ys && ys.all isDigitChar then some (String.mk ys) else none
    else none) = _
  by_cases h4 : 4 ≤ f.data.length
  · by_cases hl : leadsWith ['2', '0'] (f.data.take 4) = true
    · by_cases hd : (f.data.take 4).all isDigitChar = true
      · rw [if_pos h4, if_pos (by rw [hl, hd]; rfl), if_pos ⟨h4, hl, hd⟩]
      · rw [if_pos h4, if_neg (fun hb => hd (Bool.and_eq_true _ _ |>.mp hb).2),
          if_neg (fun hc => hd hc.2.2)]
    · rw [if_pos h4, if_neg (fun hb => hl (Bool.and_eq_true _ _ |>.mp hb).1),
        if_neg (fun hc => hl hc.2.1)]
  · rw [if_neg h4, if_neg (fun hc => h4 hc.1)]

/-- Claim C8: the year stamped on every parsed round comes from the
filename when its leading four characters are digits beginning with `20`,
and otherwise from scanning the boilerplate (page-break) lines for a
`\b20\d{2}\b` token (with `"Unknown"` when neither source yields a year). -/
theorem year_assignment (lines : List String) (filename : String) (rs : List RoundRec)
    (h : extract_rounds_from_text lines (some filename) = .ok rs)
    (r0 : RoundRec) (hr : r0 ∈ rs) :
    r0.Year = if 4 ≤ filename.data.length
        ∧ leadsWith ['2', '0'] (filename.data.take 4) = true
        ∧ (filename.data.take 4).all isDigitChar = true
      then String.mk (filename.data.take 4)
      else (match scanLinesForYear lines with | some y => y | none => "Unknown") := by
  unfold extract_rounds_from_text at h
  have hy := extractLoop_year _ _ _ rs h r0 hr
  rw [hy]
  simp only [chosenYearTournament, extract_year_from_filename_eq,
    tournament_info_year_eq_scan]
  by_cases hc : 4 ≤ filename.data.length
      ∧ leadsWith ['2', '0'] (filename.data.take 4) = true
      ∧ (filename.data.take 4).all isDigitChar = true
  · simp only [if_pos hc]
  · simp only [if_neg hc]
    cases hscan : scanLinesForYear lines <;> simp [hscan]

/-- Witness for C8 on a concrete document: the filename year `2020` wins
over the in-text year `2021`. -/
theorem year_assignment_witness :
    ∃ rs, extract_rounds_from_text
        ["2021 Nationals", "John Smith", "ABC Club", "Jane Doe", "27.5*", "2",
         "28.0", "1", "XYZ", "Aff", "W", "2 - 0"] (some "2020natls.pdf") = .ok rs
      ∧ ∀ r0 ∈ rs, r0.Year = "2020" := by
  cases hev : extract_rounds_from_text
      ["2021 Nationals", "John Smith", "ABC Club", "Jane Doe", "27.5*", "2",
       "28.0", "1", "XYZ", "Aff", "W", "2 - 0"] (some "2020natls.pdf") with
  | error e =>
    have h2 : extract_rounds_from_text
        ["2021 Nationals", "John Smith", "ABC Club", "Jane Doe", "27.5*", "2",
         "28.0", "1", "XYZ", "Aff", "W", "2 - 0"] (some "2020natls.pdf")
        = .ok ((extract_rounds_from_text
            ["2021 Nationals", "John Smith", "ABC Club", "Jane Doe", "27.5*", "2",
             "28.0", "1", "XYZ", "Aff", "W", "2 - 0"]
            (some "2020natls.pdf")).toOption.getD []) := by rfl
    rw [h2] at hev
    cases hev
  | ok rs =>
    refine ⟨rs, rfl, fun r0 hr => ?_⟩
    rw [year_assignment
      ["2021 Nationals", "John Smith", "ABC Club", "Jane Doe", "27.5*", "2",
       "28.0", "1", "XYZ", "Aff", "W", "2 - 0"] "2020natls.pdf" rs hev r0 hr]
    decide

/-! ### Claim C1: numeric conversion failures crash the parse -/

theorem assignRounds_error (t y : String) (groups : List (List String)) :
    ∀ n : Nat, (∃ g ∈ groups, ∃ e, parse_round_experience g t y = .error e) →
      ∃ e', assignRounds t y groups n = .error e' := by
  induction groups with
  | nil => intro n h; simp at h
  | cons g gs ih =>
    intro n h
    cases hp : parse_round_experience g t y with
    | error e => exact ⟨e, by simp only [assignRounds, hp]⟩
    | ok o =>
      have htail : ∃ g' ∈ gs, ∃ e, parse_round_experience g' t y = .error e := by
        rcases h with ⟨g', hg', e, he⟩
        rcases List.mem_cons.mp hg' with h1 | h1
        · subst h1; rw [hp] at he; cases he
        · exact ⟨g', h1, e, he⟩
      cases o with
      | none =>
        rcases ih n htail with ⟨e', he'⟩
        exact ⟨e', by simp only [assignRounds, hp, he']⟩
      | some r1 =>
        rcases ih (n + 1) htail with ⟨e', he'⟩
        exact ⟨e', by simp only [assignRounds, hp, he']⟩

/-- Claim C1 (amended): a round group on which `parse_round_experience`
raises (e.g. a numeric field that fails conversion after `*`-stripping)
makes the whole `parse_team_experience` call raise — the round is not
dropped and the block's remaining rounds are not processed. -/
theorem parse_round_error_propagates (team_lines : List String) (t y : String)
    (groups : List (List String))
    (hsplit : split_team_into_round_experiences team_lines = .ok groups)
    (herr : ∃ g ∈ groups, ∃ e, parse_round_experience g t y = .error e) :
    ∃ e', parse_team_experience team_lines t y = .error e' := by
  rcases assignRounds_error t y groups 1 herr with ⟨e', he'⟩
  exact ⟨e', by simp only [parse_team_experience, hsplit, he']⟩

/-- Witness for the amended C1 on a concrete block whose first points line
is the non-numeric `abc`. -/
theorem parse_round_error_propagates_witness :
    ∃ e', parse_team_experience
        ["John Smith", "ABC Club", "Jane Doe", "abc", "1", "28.0", "1",
         "XYZ", "Aff", "W"] "T" "2020" = .error e' :=
  parse_round_error_propagates
    ["John Smith", "ABC Club", "Jane Doe", "abc", "1", "28.0", "1",
     "XYZ", "Aff", "W"] "T" "2020"
    [["John Smith", "ABC Club", "Jane Doe", "abc", "1", "28.0", "1",
      "XYZ", "Aff", "W"]]
    (by rfl)
    ⟨["John Smith", "ABC Club", "Jane Doe", "abc", "1", "28.0", "1",
      "XYZ", "Aff", "W"], by decide, .valueError, by rfl⟩

/-- Counterexample for C1 as stated: on a document whose only block has the
non-numeric points line `abc`, the batch does not drop the round and
continue — the whole extraction evaluates to an uncaught `ValueError`. -/
theorem numeric_failure_crashes :
    extract_rounds_from_text
        ["John Smith", "ABC Club", "Jane Doe", "abc", "1", "28.0", "1",
         "XYZ", "Aff", "W", "2 - 0"] none = .error .valueError := by
  set_option maxRecDepth 4000 in rfl

/-! ### Claim C2: BYE/FORFEIT degenerate records -/

/-- Claim C2 is a code bug: `merge_duplicate_rounds` computes
`Team2_Won = 0 if team_b == 'FORFEIT' else 1`, the inverse of the
documented complement rule.  On a BYE observation (the team won) the
degenerate record carries `Team1_Won = 1` and `Team2_Won = 1` (the
nonexistent bye opponent also "wins"), and on a FORFEIT observation (the
team lost) it carries `Team1_Won = 0` and `Team2_Won = 0`, instead of the
claimed `Team2_Won = 0` for BYE and `Team2_Won = 1` for FORFEIT. -/
theorem bye_forfeit_team2_won_eval :
    (merge_duplicate_rounds [byeRowC2]).map (fun m => (m.Team1_Won, m.Team2_Won))
        = [(1, 1)] ∧
    (merge_duplicate_rounds [forfeitRowC2]).map (fun m => (m.Team1_Won, m.Team2_Won))
        = [(0, 0)] :=
  ⟨by rfl, by rfl⟩

/-! ### Claim C3: unmatched observations get `MISSING_DATA` names but zero
numeric fields -/

/-- Counterexample to C3 as stated: the partial record for an unmatched
observation puts the `MISSING_DATA` sentinel only in the opponent name
fields; the opponent points and ranks are plain zeros — indistinguishable
from a true zero-point forfeit — not missing-data sentinels. -/
theorem unmatched_sentinel_counterexample :
    merge_duplicate_rounds [qrsRowC3] = [mkUnmatchedRecord qrsRowC3] ∧
    (mkUnmatchedRecord qrsRowC3).Team2_Member1_Name = "MISSING_DATA" ∧
    (mkUnmatchedRecord qrsRowC3).Team2_Member2_Name = "MISSING_DATA" ∧
    (mkUnmatchedRecord qrsRowC3).Team2_Member1_Points = 0 ∧
    (mkUnmatchedRecord qrsRowC3).Team2_Member2_Points = 0 ∧
    (mkUnmatchedRecord qrsRowC3).Team2_Member1_Rank = 0 ∧
    (mkUnmatchedRecord qrsRowC3).Team2_Member2_Rank = 0 :=
  ⟨by rfl, rfl, rfl, by rfl, by rfl, rfl, rfl⟩

/-! ### Claim C5: reciprocal pairs and the silent double-loss merge -/

/-- Counterexample to C5 as stated: when both reciprocal observations report
a loss, `merge_duplicate_rounds` emits the single merged record with
`Team1_Won = 0` and `Team2_Won = 0` — neither side is 1 — and raises no
ambiguity warning (the multiple-match warning counter stays 0); the case is
silently resolved. -/
theorem double_loss_not_flagged :
    merge_duplicate_rounds [rowALC5, rowBLC5] = [mkMergedRecord rowALC5 rowBLC5] ∧
    (mkMergedRecord rowALC5 rowBLC5).Team1_Won = 0 ∧
    (mkMergedRecord rowALC5 rowBLC5).Team2_Won = 0 ∧
    (mergeRun [rowALC5, rowBLC5]).multiMatchWarnings = 0 :=
  ⟨by rfl, by rfl, by rfl, by rfl⟩

/-! Helper lemmas about pair keys, filters and the reciprocal search. -/

theorem lexLe_total (x : List Char) : ∀ y : List Char, lexLe x y = true ∨ lexLe y x = true := by
  induction x with
  | nil => intro y; left; rfl
  | cons a as ih =>
    intro y
    cases y with
    | nil => right; rfl
    | cons b bs =>
      by_cases h1 : a.toNat < b.toNat
      · left; simp [lexLe, h1]
      · by_cases h2 : b.toNat < a.toNat
        · right; simp [lexLe, h2]
        · rcases ih bs with h | h
          · left; simp [lexLe, h1, h2, h]
          · right; simp [lexLe, h1, h2, h]

theorem lexLe_antisymm (x : List Char) : ∀ y : List Char,
    lexLe x y = true → lexLe y x = true → x = y := by
  induction x with
  | nil =>
    intro y h1 h2
    cases y with
    | nil => rfl
    | cons b bs => simp [lexLe] at h2
  | cons a as ih =>
    intro y h1 h2
    cases y with
    | nil => simp [lexLe] at h1
    | cons b bs =>
      by_cases hab : a.toNat < b.toNat
      · simp [lexLe, Nat.lt_asymm hab, hab] at h2
      · by_cases hba : b.toNat < a.toNat
        · simp [lexLe, Nat.lt_asymm hba, hba] at h1
        · have hn : a.toNat = b.toNat := by omega
          have hc : a = b := by
            have := congrArg Char.ofNat hn
            rwa [Char.ofNat_toNat, Char.ofNat_toNat] at this
          subst hc
          simp only [lexLe, if_neg hab, if_neg hba] at h1 h2
          rw [ih bs h1 h2]

theorem string_eq_of_data (a b : String) (h : a.data = b.data) : a = b := by
  cases a; cases b; exact congrArg String.mk h

theorem mkPairKey_comm (a b : String) (r : Nat) (c : Ctx) :
    mkPairKey a b r c = mkPairKey b a r c := by
  unfold mkPairKey
  by_cases h1 : lexLe a.data b.data = true
  · by_cases h2 : lexLe b.data a.data = true
    · have hab : a = b := string_eq_of_data a b (lexLe_antisymm a.data b.data h1 h2)
      subst hab; rfl
    · simp [h1, h2]
  · have h2 : lexLe b.data a.data = true := (lexLe_total b.data a.data).resolve_right h1
    simp [h1, h2]

theorem mkPairKey_eq_iff (x y a b : String) (r' r : Nat) (c' c : Ctx)
    (h : mkPairKey x y r' c' = mkPairKey a b r c) :
    ((x = a ∧ y = b) ∨ (x = b ∧ y = a)) ∧ r' = r ∧ c' = c := by
  unfold mkPairKey at h
  have hc : ∀ p q : PairKey, p = q →
      p.lo = q.lo ∧ p.hi = q.hi ∧ p.round = q.round ∧ p.tournament = q.tournament
        ∧ p.year = q.year ∧ p.source = q.source := by
    intro p q hpq; rw [hpq]; exact ⟨rfl, rfl, rfl, rfl, rfl, rfl⟩
  have hctx : ∀ u v : Ctx, u.1 = v.1 → u.2.1 = v.2.1 → u.2.2 = v.2.2 → u = v := by
    intro u v h1 h2 h3
    rcases u with ⟨u1, u2, u3⟩; rcases v with ⟨v1, v2, v3⟩
    simp_all
  split at h <;> split at h <;>
    rcases hc _ _ h with ⟨e1, e2, e3, e4, e5, e6⟩ <;>
    exact ⟨by simp_all, e3, hctx c' c e4 e5 e6⟩

theorem filter_singleton_mem (l : List α) (p : α → Bool) (x : α)
    (h : l.filter p = [x]) : x ∈ l ∧ p x = true := by
  have : x ∈ l.filter p := by rw [h]; simp
  exact List.mem_filter.mp this

theorem pairRowB_decode (a b : String) (r : Nat) (c : Ctx) (w : RoundRec)
    (h : pairRowB a b r c w = true) :
    w.Team_Code = a ∧ w.Opponent_Code = b ∧ w.Round = r ∧ ctxOf w = c := by
  simp only [pairRowB, rowMatchB, Bool.and_eq_true, beq_iff_eq] at h
  exact ⟨h.1.1.1, h.1.1.2, h.1.2, h.2⟩

theorem pairRowB_intro (a b : String) (r : Nat) (c : Ctx) (w : RoundRec)
    (h1 : w.Team_Code = a) (h2 : w.Opponent_Code = b) (h3 : w.Round = r)
    (h4 : ctxOf w = c) : pairRowB a b r c w = true := by
  simp [pairRowB, rowMatchB, h1, h2, h3, h4]

/-- The strategy filters of `findReciprocal` run inside one pandas group;
composed with the group filter they are `pairRowB` filters over the batch. -/
theorem group_filter_eq (df : List RoundRec) (c : Ctx) (a b : String) (r : Nat) :
    (groupOf df c).filter (rowMatchB a b r) = df.filter (pairRowB a b r c) := by
  unfold groupOf pairRowB
  rw [List.filter_filter]

theorem findReciprocal_exact_single (g : List RoundRec) (row m : RoundRec)
    (h : g.filter (rowMatchB row.Opponent_Code row.Team_Code row.Round) = [m]) :
    findReciprocal g row = (some m, false) := by
  simp only [findReciprocal]
  rw [h]

theorem findReciprocal_some_of_exact_ne_nil (g : List RoundRec) (row : RoundRec)
    (h : g.filter (rowMatchB row.Opponent_Code row.Team_Code row.Round) ≠ []) :
    ∃ m w, findReciprocal g row = (some m, w) := by
  simp only [findReciprocal]
  cases hf : g.filter (rowMatchB row.Opponent_Code row.Team_Code row.Round) with
  | nil => exact absurd hf h
  | cons m rest =>
    cases rest with
    | nil => exact ⟨m, false, rfl⟩
    | cons m2 rest2 => exact ⟨m, true, rfl⟩

theorem filter_cons_pred (l : List α) (p : α → Bool) (x : α) (rest : List α)
    (h : l.filter p = x :: rest) : p x = true := by
  have hx : x ∈ l.filter p := by rw [h]; simp
  exact (List.mem_filter.mp hx).2

theorem findReciprocal_team (g : List RoundRec) (row opp : RoundRec) (warn : Bool)
    (h : findReciprocal g row = (some opp, warn)) :
    opp.Team_Code = row.Opponent_Code := by
  simp only [findReciprocal] at h
  iterate 8 (all_goals try split at h)
  all_goals try (cases h)
  all_goals
    rename_i heq
  all_goals
    first
    | (cases heq)
    | (have hp := filter_cons_pred _ _ _ _ heq
       simp only [rowMatchB, Bool.and_eq_true, beq_iff_eq] at hp
       exact hp.1.1)

theorem group_filter_eq_any (df : List RoundRec) (c : Ctx) (p : RoundRec → Bool) :
    (groupOf df c).filter p = df.filter (fun v => p v && (ctxOf v == c)) := by
  unfold groupOf
  rw [List.filter_filter]

theorem findReciprocal_none_of (g : List RoundRec) (row : RoundRec)
    (h1 : g.filter (rowMatchB row.Opponent_Code row.Team_Code row.Round) = [])
    (h2 : ∀ f, g.filter (rowMatchB row.Opponent_Code "FORFEIT" row.Round) ≠ [f])
    (h3 : row.Result = "L" → row.Member1_Points = 0 ∧ row.Member2_Points = 0 →
      ∀ v, g.filter (fun u => u.Team_Code == row.Opponent_Code
        && u.Round == row.Round && u.Result == "W") ≠ [v]) :
    findReciprocal g row = (none, false) := by
  have step3 : row.Result = "L" → row.Member1_Points = 0 ∧ row.Member2_Points = 0 →
      (match g.filter (fun u => u.Team_Code == row.Opponent_Code
          && u.Round == row.Round && u.Result == "W") with
        | [m] => (some m, false)
        | _ => ((none : Option RoundRec), false)) = (none, false) := by
    intro hres hpts
    cases hw : g.filter (fun u => u.Team_Code == row.Opponent_Code
        && u.Round == row.Round && u.Result == "W") with
    | nil => rfl
    | cons v r3 =>
      cases r3 with
      | nil => exact absurd hw (h3 hres hpts v)
      | cons v2 r4 => rfl
  have step2 : (if row.Result = "L" ∧ row.Opponent_Code ≠ "FORFEIT" then
      if row.Member1_Points = 0 ∧ row.Member2_Points = 0 then
        (match g.filter (fun u => u.Team_Code == row.Opponent_Code
            && u.Round == row.Round && u.Result == "W") with
          | [m] => (some m, false)
          | _ => ((none : Option RoundRec), false))
      else (none, false)
    else (none, false)) = ((none : Option RoundRec), false) := by
    split_ifs with ha hb
    · exact step3 ha.1 hb
    · rfl
    · rfl
  have e1 : findReciprocal g row =
      (match g.filter (rowMatchB row.Opponent_Code "FORFEIT" row.Round) with
        | [f] => (some (synthesizeForfeitOpponent row f), false)
        | _ => if row.Result = "L" ∧ row.Opponent_Code ≠ "FORFEIT" then
            if row.Member1_Points = 0 ∧ row.Member2_Points = 0 then
              (match g.filter (fun u => u.Team_Code == row.Opponent_Code
                  && u.Round == row.Round && u.Result == "W") with
                | [m] => (some m, false)
                | _ => ((none : Option RoundRec), false))
            else (none, false)
          else (none, false)) := by
    simp only [findReciprocal]
    rw [h1]
  rw [e1]
  cases hf2 : g.filter (rowMatchB row.Opponent_Code "FORFEIT" row.Round) with
  | nil => exact step2
  | cons f rest =>
    cases rest with
    | nil => exact absurd hf2 (h2 f)
    | cons f2 r2 => exact step2

theorem mem_singleton_filter (df : List RoundRec) (p : RoundRec → Bool) (x w : RoundRec)
    (h : df.filter p = [x]) (hw : w ∈ df) (hpw : p w = true) : w = x := by
  have hmem : w ∈ df.filter p := List.mem_filter.mpr ⟨hw, hpw⟩
  rw [h] at hmem
  simpa using hmem

theorem ctx_decode (w : RoundRec) (c : Ctx) (h : ctxOf w = c) :
    w.Tournament_Name = c.1 ∧ w.Year = c.2.1 ∧ w.Source_File = c.2.2 := by
  rw [← h]
  exact ⟨rfl, rfl, rfl⟩

theorem ctx_intro (w : RoundRec) (c : Ctx) (h1 : w.Tournament_Name = c.1)
    (h2 : w.Year = c.2.1) (h3 : w.Source_File = c.2.2) : ctxOf w = c := by
  rcases c with ⟨c1, c2, c3⟩
  simp only [ctxOf, Prod.mk.injEq]
  exact ⟨h1, h2, h3⟩

theorem isPairRec_decode (a b : String) (r : Nat) (c : Ctx) (m : MergedRec)
    (h : isPairRec a b r c m = true) :
    ((m.Team1_Code = a ∧ m.Team2_Code = b) ∨ (m.Team1_Code = b ∧ m.Team2_Code = a))
      ∧ m.Round_Number = r ∧ m.Tournament_Name = c.1 ∧ m.Year = c.2.1
      ∧ m.Source_File = c.2.2 := by
  simp only [isPairRec, Bool.and_eq_true, Bool.or_eq_true, beq_iff_eq] at h
  tauto

theorem isPairRec_intro (a b : String) (r : Nat) (c : Ctx) (m : MergedRec)
    (hpair : (m.Team1_Code = a ∧ m.Team2_Code = b) ∨ (m.Team1_Code = b ∧ m.Team2_Code = a))
    (hr : m.Round_Number = r) (h1 : m.Tournament_Name = c.1) (h2 : m.Year = c.2.1)
    (h3 : m.Source_File = c.2.2) : isPairRec a b r c m = true := by
  simp only [isPairRec, Bool.and_eq_true, Bool.or_eq_true, beq_iff_eq]
  tauto

theorem isPairRec_mkMerged_true (x y : RoundRec) (a b : String) (r : Nat) (c : Ctx)
    (hx1 : x.Team_Code = a) (hy1 : y.Team_Code = b) (hx3 : x.Round = r)
    (hx4 : ctxOf x = c) : isPairRec a b r c (mkMergedRecord x y) = true := by
  obtain ⟨e1, e2, e3⟩ := ctx_decode x c hx4
  exact isPairRec_intro a b r c _ (Or.inl ⟨hx1, hy1⟩) hx3 e1 e2 e3

theorem isPairRec_mkMerged_true_swap (x y : RoundRec) (a b : String) (r : Nat) (c : Ctx)
    (hx1 : x.Team_Code = b) (hy1 : y.Team_Code = a) (hx3 : x.Round = r)
    (hx4 : ctxOf x = c) : isPairRec a b r c (mkMergedRecord x y) = true := by
  obtain ⟨e1, e2, e3⟩ := ctx_decode x c hx4
  exact isPairRec_intro a b r c _ (Or.inr ⟨hx1, hy1⟩) hx3 e1 e2 e3

theorem isPairRec_mkMerged_pairRow (a b : String) (r : Nat) (c : Ctx) (w opp : RoundRec)
    (hteam : opp.Team_Code = w.Opponent_Code)
    (h : isPairRec a b r c (mkMergedRecord w opp) = true) :
    pairRowB a b r c w = true ∨ pairRowB b a r c w = true := by
  obtain ⟨hpair, hr, h1, h2, h3⟩ := isPairRec_decode a b r c _ h
  have ht1 : (mkMergedRecord w opp).Team1_Code = w.Team_Code := rfl
  have ht2 : (mkMergedRecord w opp).Team2_Code = opp.Team_Code := rfl
  have hctx : ctxOf w = c := ctx_intro w c h1 h2 h3
  rcases hpair with ⟨hp1, hp2⟩ | ⟨hp1, hp2⟩
  · left
    exact pairRowB_intro a b r c w (ht1 ▸ hp1) (by rw [← hteam, ← ht2]; exact hp2) hr hctx
  · right
    exact pairRowB_intro b a r c w (ht1 ▸ hp1) (by rw [← hteam, ← ht2]; exact hp2) hr hctx

theorem isPairRec_mkUnmatched_pairRow (a b : String) (r : Nat) (c : Ctx) (u : RoundRec)
    (h : isPairRec a b r c (mkUnmatchedRecord u) = true) :
    pairRowB a b r c u = true ∨ pairRowB b a r c u = true := by
  obtain ⟨hpair, hr, h1, h2, h3⟩ := isPairRec_decode a b r c _ h
  have hctx : ctxOf u = c := ctx_intro u c h1 h2 h3
  rcases hpair with ⟨hp1, hp2⟩ | ⟨hp1, hp2⟩
  · left
    exact pairRowB_intro a b r c u hp1 hp2 hr hctx
  · right
    exact pairRowB_intro b a r c u hp1 hp2 hr hctx

theorem isPairRec_mkBye_false (a b : String) (r : Nat) (c : Ctx) (w : RoundRec)
    (hsent : a ≠ "BYE" ∧ a ≠ "FORFEIT" ∧ b ≠ "BYE" ∧ b ≠ "FORFEIT")
    (hbye : w.Opponent_Code = "BYE" ∨ w.Opponent_Code = "FORFEIT") :
    isPairRec a b r c (mkByeForfeitRecord w) = false := by
  by_contra hne
  have htrue : isPairRec a b r c (mkByeForfeitRecord w) = true := by
    revert hne
    cases isPairRec a b r c (mkByeForfeitRecord w) <;> simp
  obtain ⟨hpair, _, _, _, _⟩ := isPairRec_decode a b r c _ htrue
  have ht2 : (mkByeForfeitRecord w).Team2_Code = w.Opponent_Code := rfl
  rcases hpair with ⟨_, hp2⟩ | ⟨_, hp2⟩
  · rw [ht2] at hp2
    rcases hbye with hb | hb <;> rw [hb] at hp2
    · exact hsent.2.2.1 hp2.symm
    · exact hsent.2.2.2 hp2.symm
  · rw [ht2] at hp2
    rcases hbye with hb | hb <;> rw [hb] at hp2
    · exact hsent.1 hp2.symm
    · exact hsent.2.1 hp2.symm

/-- The key built from a row that carries pair `(a, b)` in round `r` and
context `c` is the canonical key of that pair. -/
theorem key_of_pairRow (a b : String) (r : Nat) (c : Ctx) (w : RoundRec)
    (h : pairRowB a b r c w = true) :
    mkPairKey w.Team_Code w.Opponent_Code w.Round (ctxOf w) = mkPairKey a b r c := by
  obtain ⟨e1, e2, e3, e4⟩ := pairRowB_decode a b r c w h
  rw [e1, e2, e3, e4]

theorem pairRow_of_key_eq (a b : String) (r : Nat) (c : Ctx) (w : RoundRec)
    (h : mkPairKey w.Team_Code w.Opponent_Code w.Round (ctxOf w) = mkPairKey a b r c) :
    pairRowB a b r c w = true ∨ pairRowB b a r c w = true := by
  obtain ⟨hpair, hr, hc⟩ := mkPairKey_eq_iff _ _ _ _ _ _ _ _ h
  rcases hpair with ⟨h1, h2⟩ | ⟨h1, h2⟩
  · left; exact pairRowB_intro a b r c w h1 h2 hr hc
  · right; exact pairRowB_intro b a r c w h1 h2 hr hc

/-! Reduction lemmas for the three outcomes of one loop iteration. -/

theorem processRow_bye (df : List RoundRec) (st : MergeState) (w : RoundRec)
    (h : w.Opponent_Code = "BYE" ∨ w.Opponent_Code = "FORFEIT") :
    processRow df st w = { st with merged := st.merged ++ [mkByeForfeitRecord w] } := by
  simp only [processRow]
  rw [if_pos h]

theorem processRow_skip (df : List RoundRec) (st : MergeState) (w : RoundRec)
    (hnb : ¬(w.Opponent_Code = "BYE" ∨ w.Opponent_Code = "FORFEIT"))
    (hk : mkPairKey w.Team_Code w.Opponent_Code w.Round (ctxOf w) ∈ st.processedPairs) :
    processRow df st w = st := by
  simp only [processRow]
  rw [if_neg hnb, if_pos hk]

theorem processRow_found (df : List RoundRec) (st : MergeState) (w opp : RoundRec)
    (warn : Bool)
    (hnb : ¬(w.Opponent_Code = "BYE" ∨ w.Opponent_Code = "FORFEIT"))
    (hk : mkPairKey w.Team_Code w.Opponent_Code w.Round (ctxOf w) ∉ st.processedPairs)
    (hfr : findReciprocal (groupOf df (ctxOf w)) w = (some opp, warn)) :
    processRow df st w =
      { st with merged := st.merged ++ [mkMergedRecord w opp],
                processedPairs := st.processedPairs
                  ++ [mkPairKey w.Team_Code w.Opponent_Code w.Round (ctxOf w)],
                multiMatchWarnings := st.multiMatchWarnings + (if warn then 1 else 0) } := by
  simp only [processRow]
  rw [if_neg hnb, if_neg hk, hfr]

theorem processRow_unmatched (df : List RoundRec) (st : MergeState) (w : RoundRec)
    (wn : Bool)
    (hnb : ¬(w.Opponent_Code = "BYE" ∨ w.Opponent_Code = "FORFEIT"))
    (hk : mkPairKey w.Team_Code w.Opponent_Code w.Round (ctxOf w) ∉ st.processedPairs)
    (hfr : findReciprocal (groupOf df (ctxOf w)) w = (none, wn)) :
    processRow df st w = { st with unmatched := st.unmatched ++ [w] } := by
  simp only [processRow]
  rw [if_neg hnb, if_neg hk, hfr]

/-- One-step preservation of the pair-uniqueness invariant for claim C5. -/
theorem processRow_step_pair (df : List RoundRec) (a b : String) (r : Nat) (c : Ctx)
    (rowA rowB : RoundRec)
    (hfa : df.filter (pairRowB a b r c) = [rowA])
    (hfb : df.filter (pairRowB b a r c) = [rowB])
    (hsent : a ≠ "BYE" ∧ a ≠ "FORFEIT" ∧ b ≠ "BYE" ∧ b ≠ "FORFEIT")
    (st : MergeState) (w : RoundRec) (hw : w ∈ df)
    (hA : st.merged.countP (isPairRec a b r c)
        = (if mkPairKey a b r c ∈ st.processedPairs then 1 else 0))
    (hB : ∀ m ∈ st.merged, isPairRec a b r c m = true →
        m = mkMergedRecord rowA rowB ∨ m = mkMergedRecord rowB rowA)
    (hC : ∀ u ∈ st.unmatched, pairRowB a b r c u = false ∧ pairRowB b a r c u = false) :
    ((processRow df st w).merged.countP (isPairRec a b r c)
        = (if mkPairKey a b r c ∈ (processRow df st w).processedPairs then 1 else 0))
    ∧ (∀ m ∈ (processRow df st w).merged, isPairRec a b r c m = true →
        m = mkMergedRecord rowA rowB ∨ m = mkMergedRecord rowB rowA)
    ∧ (∀ u ∈ (processRow df st w).unmatched,
        pairRowB a b r c u = false ∧ pairRowB b a r c u = false)
    ∧ (mkPairKey a b r c ∈ st.processedPairs →
        mkPairKey a b r c ∈ (processRow df st w).processedPairs)
    ∧ ((w = rowA ∨ w = rowB) →
        mkPairKey a b r c ∈ (processRow df st w).processedPairs) := by
  have hpa : pairRowB a b r c rowA = true := (filter_singleton_mem df _ rowA hfa).2
  have hpb : pairRowB b a r c rowB = true := (filter_singleton_mem df _ rowB hfb).2
  obtain ⟨ea1, ea2, ea3, ea4⟩ := pairRowB_decode a b r c rowA hpa
  obtain ⟨eb1, eb2, eb3, eb4⟩ := pairRowB_decode b a r c rowB hpb
  have hkeyA : mkPairKey rowA.Team_Code rowA.Opponent_Code rowA.Round (ctxOf rowA)
      = mkPairKey a b r c := key_of_pairRow a b r c rowA hpa
  have hkeyB : mkPairKey rowB.Team_Code rowB.Opponent_Code rowB.Round (ctxOf rowB)
      = mkPairKey a b r c := by
    rw [key_of_pairRow b a r c rowB hpb]
    exact (mkPairKey_comm a b r c).symm
  by_cases hbye : w.Opponent_Code = "BYE" ∨ w.Opponent_Code = "FORFEIT"
  · rw [processRow_bye df st w hbye]
    have hrec := isPairRec_mkBye_false a b r c w hsent hbye
    refine ⟨?_, ?_, hC, fun hk => hk, ?_⟩
    · show (st.merged ++ [mkByeForfeitRecord w]).countP (isPairRec a b r c)
        = (if mkPairKey a b r c ∈ st.processedPairs then 1 else 0)
      rw [List.countP_append, List.countP_singleton, hrec]
      simpa using hA
    · intro m hm hpm
      rcases List.mem_append.mp hm with h1 | h1
      · exact hB m h1 hpm
      · have hme : m = mkByeForfeitRecord w := by simpa using h1
        rw [hme, hrec] at hpm
        cases hpm
    · intro hor
      rcases hor with he | he
      · subst he
        rw [ea2] at hbye
        rcases hbye with h' | h'
        · exact absurd h' hsent.2.2.1
        · exact absurd h' hsent.2.2.2
      · subst he
        rw [eb2] at hbye
        rcases hbye with h' | h'
        · exact absurd h' hsent.1
        · exact absurd h' hsent.2.1
  · by_cases hkey : mkPairKey w.Team_Code w.Opponent_Code w.Round (ctxOf w)
        ∈ st.processedPairs
    · rw [processRow_skip df st w hbye hkey]
      refine ⟨hA, hB, hC, fun hk => hk, ?_⟩
      intro hor
      rcases hor with he | he
      · subst he; rwa [hkeyA] at hkey
      · subst he; rwa [hkeyB] at hkey
    · rcases hfr : findReciprocal (groupOf df (ctxOf w)) w with ⟨o, warn⟩
      cases o with
      | some opp =>
        rw [processRow_found df st w opp warn hbye hkey hfr]
        have hteam : opp.Team_Code = w.Opponent_Code :=
          findReciprocal_team _ _ _ _ hfr
        by_cases hkeq : mkPairKey w.Team_Code w.Opponent_Code w.Round (ctxOf w)
            = mkPairKey a b r c
        · -- the processed row is one of the two reciprocal observations
          have hkw : mkPairKey w.Team_Code w.Opponent_Code w.Round (ctxOf w)
              = mkPairKey a b r c := hkeq
          rcases pairRow_of_key_eq a b r c w hkeq with hww | hww
          · -- the row is rowA: the exact-match filter is [rowB]
            have hwa : w = rowA := mem_singleton_filter df _ rowA w hfa hw hww
            obtain ⟨f1, f2, f3, f4⟩ := pairRowB_decode a b r c w hww
            have hexact : (groupOf df (ctxOf w)).filter
                (rowMatchB w.Opponent_Code w.Team_Code w.Round) = [rowB] := by
              rw [f4, f1, f2, f3, group_filter_eq df c b a r, hfb]
            have hfr2 : findReciprocal (groupOf df (ctxOf w)) w = (some rowB, false) :=
              findReciprocal_exact_single _ _ _ hexact
            rw [hfr] at hfr2
            have hopp : opp = rowB := by
              have h' := congrArg Prod.fst hfr2
              simpa using h'
            have hmergedtrue : isPairRec a b r c (mkMergedRecord w opp) = true := by
              rw [hopp]
              exact isPairRec_mkMerged_true w rowB a b r c f1 eb1 f3 f4
            have hknot : mkPairKey a b r c ∉ st.processedPairs := by
              rw [← hkw]; exact hkey
            have hkin : mkPairKey a b r c ∈ st.processedPairs
                ++ [mkPairKey w.Team_Code w.Opponent_Code w.Round (ctxOf w)] := by
              rw [hkw]; simp
            refine ⟨?_, ?_, hC, ?_, ?_⟩
            · show (st.merged ++ [mkMergedRecord w opp]).countP (isPairRec a b r c)
                = (if mkPairKey a b r c ∈ st.processedPairs
                    ++ [mkPairKey w.Team_Code w.Opponent_Code w.Round (ctxOf w)]
                  then 1 else 0)
              rw [List.countP_append, List.countP_singleton, hmergedtrue, hA,
                if_neg hknot, if_pos hkin]
              simp
            · intro m hm hpm
              rcases List.mem_append.mp hm with h1 | h1
              · exact hB m h1 hpm
              · have hme : m = mkMergedRecord w opp := by simpa using h1
                rw [hme, hwa, hopp]
                exact Or.inl rfl
            · intro _
              exact hkin
            · intro _
              exact hkin
          · -- the row is rowB: the exact-match filter is [rowA]
            have hwb : w = rowB := mem_singleton_filter df _ rowB w hfb hw hww
            obtain ⟨f1, f2, f3, f4⟩ := pairRowB_decode b a r c w hww
            have hexact : (groupOf df (ctxOf w)).filter
                (rowMatchB w.Opponent_Code w.Team_Code w.Round) = [rowA] := by
              rw [f4, f1, f2, f3, group_filter_eq df c a b r, hfa]
            have hfr2 : findReciprocal (groupOf df (ctxOf w)) w = (some rowA, false) :=
              findReciprocal_exact_single _ _ _ hexact
            rw [hfr] at hfr2
            have hopp : opp = rowA := by
              have h' := congrArg Prod.fst hfr2
              simpa using h'
            have hmergedtrue : isPairRec a b r c (mkMergedRecord w opp) = true := by
              rw [hopp]
              exact isPairRec_mkMerged_true_swap w rowA a b r c f1 ea1 f3 f4
            have hknot : mkPairKey a b r c ∉ st.processedPairs := by
              rw [← hkw]; exact hkey
            have hkin : mkPairKey a b r c ∈ st.processedPairs
                ++ [mkPairKey w.Team_Code w.Opponent_Code w.Round (ctxOf w)] := by
              rw [hkw]; simp
            refine ⟨?_, ?_, hC, ?_, ?_⟩
            · show (st.merged ++ [mkMergedRecord w opp]).countP (isPairRec a b r c)
                = (if mkPairKey a b r c ∈ st.processedPairs
                    ++ [mkPairKey w.Team_Code w.Opponent_Code w.Round (ctxOf w)]
                  then 1 else 0)
              rw [List.countP_append, List.countP_singleton, hmergedtrue, hA,
                if_neg hknot, if_pos hkin]
              simp
            · intro m hm hpm
              rcases List.mem_append.mp hm with h1 | h1
              · exact hB m h1 hpm
              · have hme : m = mkMergedRecord w opp := by simpa using h1
                rw [hme, hwb, hopp]
                exact Or.inr rfl
            · intro _
              exact hkin
            · intro _
              exact hkin
        · -- an unrelated pair: the new record does not involve {a, b}
          have hrecfalse : isPairRec a b r c (mkMergedRecord w opp) = false := by
            by_contra hne
            have htrue : isPairRec a b r c (mkMergedRecord w opp) = true := by
              revert hne
              cases isPairRec a b r c (mkMergedRecord w opp) <;> simp
            rcases isPairRec_mkMerged_pairRow a b r c w opp hteam htrue with hp | hp
            · exact hkeq (key_of_pairRow a b r c w hp)
            · rw [key_of_pairRow b a r c w hp] at hkeq
              exact hkeq (mkPairKey_comm b a r c)
          refine ⟨?_, ?_, hC, ?_, ?_⟩
          · show (st.merged ++ [mkMergedRecord w opp]).countP (isPairRec a b r c)
              = (if mkPairKey a b r c ∈ st.processedPairs
                  ++ [mkPairKey w.Team_Code w.Opponent_Code w.Round (ctxOf w)]
                then 1 else 0)
            rw [List.countP_append, List.countP_singleton, hrecfalse]
            have hmem : (mkPairKey a b r c ∈ st.processedPairs
                ++ [mkPairKey w.Team_Code w.Opponent_Code w.Round (ctxOf w)])
                ↔ mkPairKey a b r c ∈ st.processedPairs := by
              simp only [List.mem_append, List.mem_singleton]
              constructor
              · intro h'
                rcases h' with h' | h'
                · exact h'
                · exact absurd h'.symm hkeq
              · exact Or.inl
            by_cases hin : mkPairKey a b r c ∈ st.processedPairs
            · rw [if_pos (hmem.mpr hin)]
              rw [if_pos hin] at hA
              simpa using hA
            · rw [if_neg (fun h' => hin (hmem.mp h'))]
              rw [if_neg hin] at hA
              simpa using hA
          · intro m hm hpm
            rcases List.mem_append.mp hm with h1 | h1
            · exact hB m h1 hpm
            · have hme : m = mkMergedRecord w opp := by simpa using h1
              rw [hme, hrecfalse] at hpm
              cases hpm
          · intro hk
            show mkPairKey a b r c ∈ st.processedPairs ++ [_]
            exact List.mem_append.mpr (Or.inl hk)
          · intro hor
            rcases hor with he | he
            · subst he; exact absurd hkeyA hkeq
            · subst he; exact absurd hkeyB hkeq
      | none =>
        rw [processRow_unmatched df st w warn hbye hkey hfr]
        have hwnotpair : pairRowB a b r c w = false ∧ pairRowB b a r c w = false := by
          constructor
          · by_contra hne
            have htrue : pairRowB a b r c w = true := by
              revert hne
              cases pairRowB a b r c w <;> simp
            obtain ⟨e1, e2, e3, e4⟩ := pairRowB_decode a b r c w htrue
            have hexact : (groupOf df (ctxOf w)).filter
                (rowMatchB w.Opponent_Code w.Team_Code w.Round) = [rowB] := by
              rw [e4, e1, e2, e3, group_filter_eq df c b a r, hfb]
            rcases findReciprocal_some_of_exact_ne_nil _ w (by rw [hexact]; simp)
              with ⟨m, wn2, hsome⟩
            rw [hfr] at hsome
            cases hsome
          · by_contra hne
            have htrue : pairRowB b a r c w = true := by
              revert hne
              cases pairRowB b a r c w <;> simp
            obtain ⟨e1, e2, e3, e4⟩ := pairRowB_decode b a r c w htrue
            have hexact : (groupOf df (ctxOf w)).filter
                (rowMatchB w.Opponent_Code w.Team_Code w.Round) = [rowA] := by
              rw [e4, e1, e2, e3, group_filter_eq df c a b r, hfa]
            rcases findReciprocal_some_of_exact_ne_nil _ w (by rw [hexact]; simp)
              with ⟨m, wn2, hsome⟩
            rw [hfr] at hsome
            cases hsome
        refine ⟨hA, hB, ?_, fun hk => hk, ?_⟩
        · intro u hu
          rcases List.mem_append.mp hu with h1 | h1
          · exact hC u h1
          · have hue : u = w := by simpa using h1
            rw [hue]
            exact hwnotpair
        · intro hor
          rcases hor with he | he
          · subst he
            rw [hpa] at hwnotpair
            cases hwnotpair.1
          · subst he
            rw [hpb] at hwnotpair
            cases hwnotpair.2

theorem ctxScan_mem (rows : List RoundRec) : ∀ (acc : List Ctx) (c : Ctx),
    (c ∈ acc ∨ ∃ v ∈ rows, ctxOf v = c) → c ∈ ctxScan rows acc := by
  induction rows with
  | nil =>
    intro acc c h
    rcases h with h | ⟨v, hv, _⟩
    · simpa [ctxScan] using h
    · simp at hv
  | cons v vs ih =>
    intro acc c h
    simp only [ctxScan]
    by_cases hv : ctxOf v ∈ acc
    · rw [if_pos hv]
      apply ih
      rcases h with h | ⟨u, hu, he⟩
      · exact Or.inl h
      · rcases List.mem_cons.mp hu with h1 | h1
        · subst h1
          rw [he] at hv
          exact Or.inl hv
        · exact Or.inr ⟨u, h1, he⟩
    · rw [if_neg hv]
      apply ih
      rcases h with h | ⟨u, hu, he⟩
      · exact Or.inl (List.mem_cons.mpr (Or.inr h))
      · rcases List.mem_cons.mp hu with h1 | h1
        · subst h1
          rw [← he]
          exact Or.inl (List.mem_cons_self _ _)
        · exact Or.inr ⟨u, h1, he⟩

theorem mem_orderedRows (df : List RoundRec) (w : RoundRec) (hw : w ∈ df) :
    w ∈ orderedRows df := by
  unfold orderedRows
  apply List.mem_flatMap.mpr
  refine ⟨ctxOf w, ?_, ?_⟩
  · exact ctxScan_mem df [] (ctxOf w) (Or.inr ⟨w, hw, rfl⟩)
  · exact List.mem_filter.mpr ⟨hw, by simp⟩

theorem orderedRows_subset (df : List RoundRec) : ∀ w ∈ orderedRows df, w ∈ df := by
  intro w hw
  rcases List.mem_flatMap.mp hw with ⟨c, _, hmem⟩
  exact (List.mem_filter.mp hmem).1

theorem foldl_processRow_pair (df : List RoundRec) (a b : String) (r : Nat) (c : Ctx)
    (rowA rowB : RoundRec)
    (hfa : df.filter (pairRowB a b r c) = [rowA])
    (hfb : df.filter (pairRowB b a r c) = [rowB])
    (hsent : a ≠ "BYE" ∧ a ≠ "FORFEIT" ∧ b ≠ "BYE" ∧ b ≠ "FORFEIT") :
    ∀ (rows : List RoundRec) (st : MergeState),
      (∀ v ∈ rows, v ∈ df) →
      st.merged.countP (isPairRec a b r c)
          = (if mkPairKey a b r c ∈ st.processedPairs then 1 else 0) →
      (∀ m ∈ st.merged, isPairRec a b r c m = true →
          m = mkMergedRecord rowA rowB ∨ m = mkMergedRecord rowB rowA) →
      (∀ u ∈ st.unmatched, pairRowB a b r c u = false ∧ pairRowB b a r c u = false) →
      (mkPairKey a b r c ∈ st.processedPairs ∨ rowA ∈ rows) →
      ((rows.foldl (processRow df) st).merged.countP (isPairRec a b r c)
          = (if mkPairKey a b r c ∈ (rows.foldl (processRow df) st).processedPairs
            then 1 else 0))
      ∧ (∀ m ∈ (rows.foldl (processRow df) st).merged, isPairRec a b r c m = true →
          m = mkMergedRecord rowA rowB ∨ m = mkMergedRecord rowB rowA)
      ∧ (∀ u ∈ (rows.foldl (processRow df) st).unmatched,
          pairRowB a b r c u = false ∧ pairRowB b a r c u = false)
      ∧ mkPairKey a b r c ∈ (rows.foldl (processRow df) st).processedPairs := by
  intro rows
  induction rows with
  | nil =>
    intro st hsub hA hB hC hreach
    simp only [List.foldl_nil]
    rcases hreach with h | h
    · exact ⟨hA, hB, hC, h⟩
    · simp at h
  | cons v rest ih =>
    intro st hsub hA hB hC hreach
    simp only [List.foldl_cons]
    have hv : v ∈ df := hsub v (by simp)
    obtain ⟨hA', hB', hC', hmono, hreachv⟩ :=
      processRow_step_pair df a b r c rowA rowB hfa hfb hsent st v hv hA hB hC
    apply ih (processRow df st v) (fun u hu => hsub u (by simp [hu])) hA' hB' hC'
    rcases hreach with h | h
    · exact Or.inl (hmono h)
    · rcases List.mem_cons.mp h with h1 | h1
      · exact Or.inl (hreachv (Or.inl h1.symm))
      · exact Or.inr h1

/-- Claim C5 (amended): for two reciprocal well-formed observations (team
`a` records opponent `b` and team `b` records opponent `a`, same round,
same tournament/year/source context, each unique in the batch),
`merge_duplicate_rounds` emits exactly one `MergedRec` for that unordered
pair, round and context, and that record carries each side's independently
reported outcome, so exactly one of `Team1_Won`/`Team2_Won` is 1 precisely
when the two reports are consistent.  A both-loss (or both-win) pair is
emitted silently with equal flags — no ambiguity is flagged. -/
theorem reciprocal_pair_unique_record (df : List RoundRec) (a b : String) (r : Nat)
    (c : Ctx) (rowA rowB : RoundRec)
    (hfa : df.filter (pairRowB a b r c) = [rowA])
    (hfb : df.filter (pairRowB b a r c) = [rowB])
    (hsent : a ≠ "BYE" ∧ a ≠ "FORFEIT" ∧ b ≠ "BYE" ∧ b ≠ "FORFEIT") :
    (merge_duplicate_rounds df).countP (isPairRec a b r c) = 1
    ∧ (∀ m ∈ merge_duplicate_rounds df, isPairRec a b r c m = true →
        m = mkMergedRecord rowA rowB ∨ m = mkMergedRecord rowB rowA)
    ∧ (∀ m ∈ merge_duplicate_rounds df, isPairRec a b r c m = true →
        (m.Team1_Won + m.Team2_Won = 1 ↔ (rowA.Result = "W" ↔ ¬(rowB.Result = "W")))) := by
  have hrowAdf : rowA ∈ df := (filter_singleton_mem df _ rowA hfa).1
  obtain ⟨hA, hB, hC, hk⟩ := foldl_processRow_pair df a b r c rowA rowB hfa hfb hsent
    (orderedRows df) ⟨[], [], [], 0⟩ (fun v hv => orderedRows_subset df v hv)
    (by simp) (by simp) (by simp)
    (Or.inr (mem_orderedRows df rowA hrowAdf))
  have hshape : ∀ m ∈ merge_duplicate_rounds df, isPairRec a b r c m = true →
      m = mkMergedRecord rowA rowB ∨ m = mkMergedRecord rowB rowA := by
    intro m hm hpm
    rcases List.mem_append.mp hm with h1 | h1
    · exact hB m h1 hpm
    · rcases List.mem_map.mp h1 with ⟨u, hu, hmu⟩
      have hcu := hC u hu
      rw [← hmu] at hpm
      rcases isPairRec_mkUnmatched_pairRow a b r c u hpm with hp | hp
      · rw [hcu.1] at hp; cases hp
      · rw [hcu.2] at hp; cases hp
  refine ⟨?_, hshape, ?_⟩
  · show ((mergeRun df).merged
        ++ (mergeRun df).unmatched.map mkUnmatchedRecord).countP (isPairRec a b r c) = 1
    rw [List.countP_append]
    have hmap : ((mergeRun df).unmatched.map mkUnmatchedRecord).countP
        (isPairRec a b r c) = 0 := by
      rw [List.countP_map]
      apply List.countP_eq_zero.mpr
      intro u hu hcontra
      have hcu := hC u hu
      rcases isPairRec_mkUnmatched_pairRow a b r c u hcontra with hp | hp
      · rw [hcu.1] at hp; cases hp
      · rw [hcu.2] at hp; cases hp
    rw [hmap]
    have hone : (mergeRun df).merged.countP (isPairRec a b r c) = 1 := by
      show ((orderedRows df).foldl (processRow df)
        ⟨[], [], [], 0⟩).merged.countP (isPairRec a b r c) = 1
      rw [hA, if_pos hk]
    rw [hone]
  · intro m hm hpm
    rcases hshape m hm hpm with he | he
    · rw [he]
      show ((if rowA.Result = "W" then 1 else 0) : Nat)
          + (if rowB.Result = "W" then 1 else 0) = 1
          ↔ (rowA.Result = "W" ↔ ¬(rowB.Result = "W"))
      by_cases h1 : rowA.Result = "W" <;> by_cases h2 : rowB.Result = "W" <;>
        simp [h1, h2]
    · rw [he]
      show ((if rowB.Result = "W" then 1 else 0) : Nat)
          + (if rowA.Result = "W" then 1 else 0) = 1
          ↔ (rowA.Result = "W" ↔ ¬(rowB.Result = "W"))
      by_cases h1 : rowA.Result = "W" <;> by_cases h2 : rowB.Result = "W" <;>
        simp [h1, h2]

/-- Witness for the amended C5: the both-loss reciprocal batch yields
exactly one record for the pair. -/
theorem reciprocal_pair_unique_record_witness :
    (merge_duplicate_rounds [rowALC5, rowBLC5]).countP
      (isPairRec "AAA" "BBB" 1 ("T", "2020", "f.pdf")) = 1 :=
  (reciprocal_pair_unique_record [rowALC5, rowBLC5] "AAA" "BBB" 1
    ("T", "2020", "f.pdf") rowALC5 rowBLC5 (by decide) (by decide) (by decide)).1

/-- One-step preservation for claim C3: while the canonical key of an
unmatchable observation is unprocessed, it stays unprocessed, the unmatched
list only grows, and processing the observation itself lands it in the
unmatched list. -/
theorem processRow_step_unmatched (df : List RoundRec) (w : RoundRec) (b : String)
    (r : Nat) (c : Ctx)
    (hb : w.Opponent_Code = b) (hr : w.Round = r) (hc : ctxOf w = c)
    (hbsent : b ≠ "BYE" ∧ b ≠ "FORFEIT")
    (hself : df.filter (pairRowB w.Team_Code b r c) = [w])
    (h1 : df.filter (pairRowB b w.Team_Code r c) = [])
    (h2 : (df.filter (pairRowB b "FORFEIT" r c)).length ≠ 1)
    (h3 : w.Result = "L" → w.Member1_Points = 0 ∧ w.Member2_Points = 0 →
        (df.filter (fun v => (v.Team_Code == b && v.Round == r && v.Result == "W")
            && (ctxOf v == c))).length ≠ 1)
    (st : MergeState) (v : RoundRec) (hv : v ∈ df)
    (hINV : mkPairKey w.Team_Code b r c ∉ st.processedPairs) :
    (mkPairKey w.Team_Code b r c ∉ (processRow df st v).processedPairs)
    ∧ (∀ u ∈ st.unmatched, u ∈ (processRow df st v).unmatched)
    ∧ (v = w → w ∈ (processRow df st v).unmatched) := by
  have hwfr : findReciprocal (groupOf df (ctxOf w)) w = (none, false) := by
    apply findReciprocal_none_of
    · rw [hb, hr, hc, group_filter_eq df c b w.Team_Code r, h1]
    · intro f
      rw [hb, hr, hc, group_filter_eq df c b "FORFEIT" r]
      intro hcontra
      apply h2
      rw [hcontra]
      rfl
    · intro hres hpts v'
      rw [hb, hr, hc, group_filter_eq_any df c
        (fun u => u.Team_Code == b && u.Round == r && u.Result == "W")]
      intro hcontra
      exact h3 hres hpts (by rw [hcontra]; rfl)
  have hwkey : mkPairKey w.Team_Code w.Opponent_Code w.Round (ctxOf w)
      = mkPairKey w.Team_Code b r c := by
    rw [hb, hr, hc]
  by_cases hbye : v.Opponent_Code = "BYE" ∨ v.Opponent_Code = "FORFEIT"
  · rw [processRow_bye df st v hbye]
    refine ⟨hINV, fun u hu => hu, ?_⟩
    intro he
    rw [he, hb] at hbye
    rcases hbye with h' | h'
    · exact absurd h' hbsent.1
    · exact absurd h' hbsent.2
  · by_cases hkey : mkPairKey v.Team_Code v.Opponent_Code v.Round (ctxOf v)
        ∈ st.processedPairs
    · rw [processRow_skip df st v hbye hkey]
      refine ⟨hINV, fun u hu => hu, ?_⟩
      intro he
      rw [he, hwkey] at hkey
      exact absurd hkey hINV
    · rcases hfr : findReciprocal (groupOf df (ctxOf v)) v with ⟨o, warn⟩
      cases o with
      | some opp =>
        rw [processRow_found df st v opp warn hbye hkey hfr]
        have hkne : mkPairKey v.Team_Code v.Opponent_Code v.Round (ctxOf v)
            ≠ mkPairKey w.Team_Code b r c := by
          intro hkeq
          rcases pairRow_of_key_eq w.Team_Code b r c v hkeq with hp | hp
          · have hvw : v = w := mem_singleton_filter df _ w v hself hv hp
            rw [hvw, hwfr] at hfr
            cases hfr
          · have : v ∈ df.filter (pairRowB b w.Team_Code r c) :=
              List.mem_filter.mpr ⟨hv, hp⟩
            rw [h1] at this
            simp at this
        refine ⟨?_, fun u hu => hu, ?_⟩
        · intro hmem
          rcases List.mem_append.mp hmem with h' | h'
          · exact absurd h' hINV
          · have : mkPairKey w.Team_Code b r c
                = mkPairKey v.Team_Code v.Opponent_Code v.Round (ctxOf v) := by
              simpa using h'
            exact hkne this.symm
        · intro he
          rw [he, hwfr] at hfr
          cases hfr
      | none =>
        rw [processRow_unmatched df st v warn hbye hkey hfr]
        refine ⟨hINV, ?_, ?_⟩
        · intro u hu
          exact List.mem_append.mpr (Or.inl hu)
        · intro he
          rw [he]
          exact List.mem_append.mpr (Or.inr (by simp))

theorem foldl_processRow_unmatched (df : List RoundRec) (w : RoundRec) (b : String)
    (r : Nat) (c : Ctx)
    (hb : w.Opponent_Code = b) (hr : w.Round = r) (hc : ctxOf w = c)
    (hbsent : b ≠ "BYE" ∧ b ≠ "FORFEIT")
    (hself : df.filter (pairRowB w.Team_Code b r c) = [w])
    (h1 : df.filter (pairRowB b w.Team_Code r c) = [])
    (h2 : (df.filter (pairRowB b "FORFEIT" r c)).length ≠ 1)
    (h3 : w.Result = "L" → w.Member1_Points = 0 ∧ w.Member2_Points = 0 →
        (df.filter (fun v => (v.Team_Code == b && v.Round == r && v.Result == "W")
            && (ctxOf v == c))).length ≠ 1) :
    ∀ (rows : List RoundRec) (st : MergeState),
      (∀ v ∈ rows, v ∈ df) →
      mkPairKey w.Team_Code b r c ∉ st.processedPairs →
      (w ∈ st.unmatched ∨ w ∈ rows) →
      w ∈ (rows.foldl (processRow df) st).unmatched := by
  intro rows
  induction rows with
  | nil =>
    intro st hsub hINV hreach
    rcases hreach with h | h
    · simpa using h
    · simp at h
  | cons v rest ih =>
    intro st hsub hINV hreach
    simp only [List.foldl_cons]
    have hv : v ∈ df := hsub v (by simp)
    obtain ⟨hINV', hmono, hvw⟩ := processRow_step_unmatched df w b r c hb hr hc
      hbsent hself h1 h2 h3 st v hv hINV
    apply ih (processRow df st v) (fun u hu => hsub u (by simp [hu])) hINV'
    rcases hreach with h | h
    · exact Or.inl (hmono w h)
    · rcases List.mem_cons.mp h with h' | h'
      · exact Or.inl (hvw h'.symm)
      · exact Or.inr h'

/-- Claim C3 (amended): an observation whose reciprocal search fails by all
three strategies is recorded in the unmatched list, and the partial record
emitted for it carries the `MISSING_DATA` sentinel in the opponent name
fields, plain zeros (not sentinels) in the opponent points and ranks, and
the complement of the observation's outcome in `Team2_Won`. -/
theorem unmatched_record_shape (df : List RoundRec) (w : RoundRec) (b : String)
    (r : Nat) (c : Ctx)
    (hb : w.Opponent_Code = b) (hr : w.Round = r) (hc : ctxOf w = c)
    (hbsent : b ≠ "BYE" ∧ b ≠ "FORFEIT")
    (hself : df.filter (pairRowB w.Team_Code b r c) = [w])
    (h1 : df.filter (pairRowB b w.Team_Code r c) = [])
    (h2 : (df.filter (pairRowB b "FORFEIT" r c)).length ≠ 1)
    (h3 : w.Result = "L" → w.Member1_Points = 0 ∧ w.Member2_Points = 0 →
        (df.filter (fun v => (v.Team_Code == b && v.Round == r && v.Result == "W")
            && (ctxOf v == c))).length ≠ 1) :
    mkUnmatchedRecord w ∈ merge_duplicate_rounds df
    ∧ w ∈ (mergeRun df).unmatched
    ∧ (mkUnmatchedRecord w).Team2_Code = w.Opponent_Code
    ∧ (mkUnmatchedRecord w).Team2_Member1_Name = "MISSING_DATA"
    ∧ (mkUnmatchedRecord w).Team2_Member2_Name = "MISSING_DATA"
    ∧ (mkUnmatchedRecord w).Team2_Member1_Points = 0
    ∧ (mkUnmatchedRecord w).Team2_Member2_Points = 0
    ∧ (mkUnmatchedRecord w).Team2_Member1_Rank = 0
    ∧ (mkUnmatchedRecord w).Team2_Member2_Rank = 0
    ∧ (mkUnmatchedRecord w).Team2_Won = (if w.Result = "W" then 0 else 1) := by
  have hwdf : w ∈ df := (filter_singleton_mem df _ w hself).1
  have hmem : w ∈ (mergeRun df).unmatched :=
    foldl_processRow_unmatched df w b r c hb hr hc hbsent hself h1 h2 h3
      (orderedRows df) ⟨[], [], [], 0⟩ (fun v hv => orderedRows_subset df v hv)
      (by simp) (Or.inr (mem_orderedRows df w hwdf))
  refine ⟨?_, hmem, rfl, rfl, rfl, rfl, rfl, rfl, rfl, rfl⟩
  show mkUnmatchedRecord w ∈
    (mergeRun df).merged ++ (mergeRun df).unmatched.map mkUnmatchedRecord
  exact List.mem_append.mpr (Or.inr (List.mem_map.mpr ⟨w, hmem, rfl⟩))

/-- Witness for the amended C3 on the concrete unmatched observation. -/
theorem unmatched_record_shape_witness :
    mkUnmatchedRecord qrsRowC3 ∈ merge_duplicate_rounds [qrsRowC3] :=
  (unmatched_record_shape [qrsRowC3] qrsRowC3 "QRS" 1 ("T", "2020", "f.pdf")
    (by rfl) (by rfl) (by rfl) (by decide) (by decide) (by decide) (by decide)
    (by decide)).1

/-! ### Claim C7: idempotence of name normalization -/

/-- Counterexample to C7 as stated: the surname-prefix rule `mac → mc`
fires on the pattern `"mac "` at the start of the string and replaces it
with `" mc"`, leaving a leading space (`normalize "mac donald" =
" mcdonald"`); the second `normalize` strips that space, so
`normalize ∘ normalize ≠ normalize` under the default configuration. -/
theorem normalize_not_idempotent :
    normalize (normalize "mac donald".data) ≠ normalize "mac donald".data := by
  decide

theorem pyReplaceAux_single (a : Char) (bs : List Char) :
    ∀ (fuel : Nat) (s : List Char), s.length ≤ fuel →
      pyReplaceAux [a] bs fuel s = s.flatMap (fun c => if c == a then bs else [c]) := by
  intro fuel
  induction fuel with
  | zero =>
    intro s h
    cases s with
    | nil => rfl
    | cons c rest => simp at h
  | succ n ih =>
    intro s h
    cases s with
    | nil => rfl
    | cons c rest =>
      simp only [pyReplaceAux, List.flatMap_cons]
      by_cases hac : a = c
      · have hcond : (leadsWith [a] (c :: rest) && !([a] : List Char).isEmpty) = true := by
          simp [leadsWith, hac]
        rw [if_pos hcond]
        have hca : (c == a) = true := by simp [hac.symm]
        rw [hca]
        simp only [if_true]
        have hrest : rest.length ≤ n := by
          simp only [List.length_cons] at h
          omega
        have hdrop : List.drop ([a] : List Char).length (c :: rest) = rest := rfl
        rw [hdrop, ih rest hrest]
      · have hcond : (leadsWith [a] (c :: rest) && !([a] : List Char).isEmpty) = false := by
          simp [leadsWith, hac]
        rw [hcond]
        simp only [Bool.false_eq_true, if_false]
        have hca : (c == a) = false := by
          simp only [beq_eq_false_iff_ne, ne_eq]
          exact fun hc => hac hc.symm
        rw [hca]
        simp only [Bool.false_eq_true, if_false]
        have hrest : rest.length ≤ n := by
          simp only [List.length_cons] at h
          omega
        rw [ih rest hrest]
        rfl

theorem pyReplaceChars_single (a : Char) (bs s : List Char) :
    pyReplaceChars s [a] bs = s.flatMap (fun c => if c == a then bs else [c]) :=
  pyReplaceAux_single a bs s.length s le_rfl

theorem mem_replace_single (d a : Char) (bs s : List Char)
    (hd : d ∈ pyReplaceChars s [a] bs) : d ∈ bs ∨ (d ∈ s ∧ d ≠ a) := by
  rw [pyReplaceChars_single] at hd
  rcases List.mem_flatMap.mp hd with ⟨c, hc, hdc⟩
  by_cases hca : c = a
  · rw [if_pos (by simp [hca])] at hdc
    exact Or.inl hdc
  · rw [if_neg (by simp [hca])] at hdc
    have : d = c := by simpa using hdc
    exact Or.inr ⟨this ▸ hc, this ▸ hca⟩

theorem replace_single_id (a : Char) (bs s : List Char) (h : ∀ c ∈ s, c ≠ a) :
    pyReplaceChars s [a] bs = s := by
  rw [pyReplaceChars_single]
  induction s with
  | nil => rfl
  | cons c rest ih =>
    simp only [List.flatMap_cons]
    rw [if_neg (by simp; exact h c (by simp))]
    rw [ih (fun u hu => h u (by simp [hu]))]
    rfl

theorem punctStage_no_punct (s : List Char) :
    ∀ c ∈ punctStage s, c ≠ Char.ofNat 39 ∧ c ≠ '-' ∧ c ≠ '.' := by
  intro c hc
  unfold punctStage at hc
  rcases mem_replace_single c '.' [] _ hc with h | ⟨hc2, hdot⟩
  · simp at h
  rcases mem_replace_single c '-' [] _ hc2 with h | ⟨hc3, hdash⟩
  · simp at h
  rcases mem_replace_single c (Char.ofNat 39) [] _ hc3 with h | ⟨_, hapos⟩
  · simp at h
  exact ⟨hapos, hdash, hdot⟩

theorem mem_unicodeStage_of (c : Char) (s : List Char) (hc : c ∈ unicodeStage s) :
    c ∈ (['n', 'N', 'c', 'C'] : List Char) ∨ c ∈ s := by
  unfold unicodeStage at hc
  rcases mem_replace_single c 'Ç' ['C'] _ hc with h | ⟨hc2, _⟩
  · simp at h
    simp [h]
  rcases mem_replace_single c 'ç' ['c'] _ hc2 with h | ⟨hc3, _⟩
  · simp at h
    simp [h]
  rcases mem_replace_single c 'Ñ' ['N'] _ hc3 with h | ⟨hc4, _⟩
  · simp at h
    simp [h]
  rcases mem_replace_single c 'ñ' ['n'] _ hc4 with h | ⟨hc5, _⟩
  · simp at h
    simp [h]
  exact Or.inr hc5

theorem unicodeStage_no_special (s : List Char) :
    ∀ c ∈ unicodeStage s, c ≠ 'ñ' ∧ c ≠ 'Ñ' ∧ c ≠ 'ç' ∧ c ≠ 'Ç' := by
  intro c hc
  unfold unicodeStage at hc
  rcases mem_replace_single c 'Ç' ['C'] _ hc with h | ⟨hc2, hC2⟩
  · simp at h
    simp [h]
  rcases mem_replace_single c 'ç' ['c'] _ hc2 with h | ⟨hc3, hc3'⟩
  · simp at h
    simp [h]
  rcases mem_replace_single c 'Ñ' ['N'] _ hc3 with h | ⟨hc4, hN⟩
  · simp at h
    simp [h]
  rcases mem_replace_single c 'ñ' ['n'] _ hc4 with h | ⟨_, hn⟩
  · simp at h
    simp [h]
  exact ⟨hn, hN, hc3', hC2⟩

theorem normalize_no_punct (x : List Char) :
    ∀ c ∈ normalize x, c ≠ Char.ofNat 39 ∧ c ≠ '-' ∧ c ≠ '.' := by
  intro c hc
  unfold normalize at hc
  by_cases hx : x = []
  · rw [if_pos hx] at hc
    simp at hc
  · rw [if_neg hx] at hc
    rcases mem_unicodeStage_of c _ hc with h | h
    · simp at h
      rcases h with h | h | h | h <;> rw [h] <;> exact ⟨by decide, by decide, by decide⟩
    · exact punctStage_no_punct _ c h

theorem normalize_no_unicode (x : List Char) :
    ∀ c ∈ normalize x, c ≠ 'ñ' ∧ c ≠ 'Ñ' ∧ c ≠ 'ç' ∧ c ≠ 'Ç' := by
  intro c hc
  unfold normalize at hc
  by_cases hx : x = []
  · rw [if_pos hx] at hc
    simp at hc
  · rw [if_neg hx] at hc
    exact unicodeStage_no_special _ c hc

theorem punctStage_id (s : List Char)
    (h : ∀ c ∈ s, c ≠ Char.ofNat 39 ∧ c ≠ '-' ∧ c ≠ '.') : punctStage s = s := by
  unfold punctStage
  rw [replace_single_id (Char.ofNat 39) [] s (fun c hc => (h c hc).1),
    replace_single_id '-' [] s (fun c hc => (h c hc).2.1),
    replace_single_id '.' [] s (fun c hc => (h c hc).2.2)]

theorem unicodeStage_id (s : List Char)
    (h : ∀ c ∈ s, c ≠ 'ñ' ∧ c ≠ 'Ñ' ∧ c ≠ 'ç' ∧ c ≠ 'Ç') : unicodeStage s = s := by
  unfold unicodeStage
  rw [replace_single_id 'ñ' ['n'] s (fun c hc => (h c hc).1),
    replace_single_id 'Ñ' ['N'] s (fun c hc => (h c hc).2.1),
    replace_single_id 'ç' ['c'] s (fun c hc => (h c hc).2.2.1),
    replace_single_id 'Ç' ['C'] s (fun c hc => (h c hc).2.2.2)]

/-- Claim C7 (amended): `normalize` is not idempotent in general (see the
counterexample); it is idempotent on every input whose normalized form is
already fixed by the whitespace-strip, whitespace-collapse, case-folding
and surname-prefix stages — the punctuation and unicode stages are provably
always fixed on normalized output. -/
theorem normalize_idempotent_of_fixed (x : List Char)
    (h1 : pyStripChars (normalize x) = normalize x)
    (h2 : collapseWs (normalize x) = normalize x)
    (h3 : lowerStr (normalize x) = normalize x)
    (h4 : surnameStage (normalize x) = normalize x) :
    normalize (normalize x) = normalize x := by
  have hpunct := normalize_no_punct x
  have huni := normalize_no_unicode x
  by_cases hx : normalize x = []
  · rw [hx]
    rfl
  · conv_lhs => rw [normalize]
    rw [if_neg hx, h1, h2, h3, h4, punctStage_id _ hpunct, unicodeStage_id _ huni]

/-- Witness for the amended C7: the name `"maria de la cruz"` normalizes to
`"maria delacruz"`, which is fixed by the first four stages, so a second
normalization changes nothing. -/
theorem normalize_idempotent_of_fixed_witness :
    normalize (normalize "maria de la cruz".data) = normalize "maria de la cruz".data :=
  normalize_idempotent_of_fixed "maria de la cruz".data
    (by decide) (by decide) (by decide) (by decide)

end Speechranks
